import Mathlib

/-!
Verification of the frequenz-sdk core against its specification.

The development shallowly embeds the Python sources:
  * `src/frequenz/sdk/actor/channel_registry.py`   (`ChannelRegistry`)
  * `src/frequenz/sdk/microgrid/component_graph.py` (`ComponentGraph`)
  * `src/frequenz/sdk/_internal/_graph_traversal.py` (`dfs`,
    `find_first_descendant_component`, component-class helpers)
and, for the battery health tracker whose implementation file is not part of
the sources (only its tests are), a model written from the specification.

Python sets are modelled as lists (iteration order of a list standing in for
the arbitrary iteration order of a set); Python exceptions are modelled with
`Except`; wall-clock time is modelled as natural-number seconds.
-/

namespace Frz

/-! ## Data model (frequenz.client.microgrid) -/

/-- Component categories, as used by the component graph
(`GRID, METER, INVERTER, BATTERY, EV_CHARGER, CHP, LOAD, NONE`). -/
inductive ComponentCategory where
  | none
  | grid
  | meter
  | inverter
  | battery
  | evCharger
  | chp
  | load
  deriving DecidableEq, Repr

/-- Inverter types (`InverterType.SOLAR`, `InverterType.BATTERY`). -/
inductive InverterType where
  | solar
  | battery
  deriving DecidableEq, Repr

/-- A microgrid component: numeric id, category and (for inverters) an
optional type. -/
structure Component where
  component_id : Nat
  category : ComponentCategory
  type : Option InverterType := Option.none
  deriving DecidableEq, Repr

/-- A directed connection between two component ids (power flows from
`start` to `end_`). -/
structure Connection where
  start : Nat
  end_ : Nat
  deriving DecidableEq, Repr

/-! ## Channel registry (`channel_registry.py`) -/

/-- A broadcast channel.  Python object identity is modelled by a unique
allocation index `uid`; the constructor argument of `Broadcast` is `name`. -/
structure BChannel where
  name : String
  uid : Nat
  deriving DecidableEq, Repr

/-- A sender endpoint of a broadcast channel. -/
structure BSender where
  chan : BChannel
  deriving DecidableEq, Repr

/-- A receiver endpoint of a broadcast channel. -/
structure BReceiver where
  chan : BChannel
  deriving DecidableEq, Repr

/-- The state of a `ChannelRegistry`: its name and the key-to-channel map
(`self._channels`, modelled as an association list), plus the allocation
counter backing channel identity. -/
structure ChannelRegistry where
  name : String
  channels : List (String × BChannel)
  nextUid : Nat
  deriving DecidableEq, Repr

/-- A fresh registry, as built by `ChannelRegistry(name=...)`. -/
def ChannelRegistry.mkNew (name : String) : ChannelRegistry :=
  ⟨name, [], 0⟩

/-- Lookup of `self._channels[key]`. -/
def ChannelRegistry.lookup (reg : ChannelRegistry) (key : String) :
    Option BChannel :=
  (reg.channels.find? (fun p => p.1 == key)).map Prod.snd

/-- The shared body of `get_sender` / `get_receiver`: if `key` is absent,
create `Broadcast(f"{self._name}-{key}")` and store it; then return the
stored channel. -/
def ChannelRegistry.ensureChannel (reg : ChannelRegistry) (key : String) :
    BChannel × ChannelRegistry :=
  match reg.lookup key with
  | some ch => (ch, reg)
  | Option.none =>
    let ch : BChannel := ⟨reg.name ++ "-" ++ key, reg.nextUid⟩
    (ch, { reg with
            channels := reg.channels ++ [(key, ch)],
            nextUid := reg.nextUid + 1 })

/-- `ChannelRegistry.get_sender`. -/
def ChannelRegistry.get_sender (reg : ChannelRegistry) (key : String) :
    BSender × ChannelRegistry :=
  let (ch, reg') := reg.ensureChannel key
  (⟨ch⟩, reg')

/-- `ChannelRegistry.get_receiver`. -/
def ChannelRegistry.get_receiver (reg : ChannelRegistry) (key : String) :
    BReceiver × ChannelRegistry :=
  let (ch, reg') := reg.ensureChannel key
  (⟨ch⟩, reg')

/-! ### C2: sender and receiver share one channel per key -/

theorem ensureChannel_known (reg : ChannelRegistry) (key : String)
    (ch : BChannel) (h : reg.lookup key = some ch) :
    reg.ensureChannel key = (ch, reg) := by
  unfold ChannelRegistry.ensureChannel
  rw [h]

theorem find?_append_of_none {α : Type} (p : α → Bool) (l l2 : List α)
    (h : l.find? p = Option.none) : (l ++ l2).find? p = l2.find? p := by
  induction l with
  | nil => rfl
  | cons a t ih =>
    rw [List.find?_cons] at h
    rcases hpa : p a with _ | _
    · rw [hpa] at h
      rw [List.cons_append, List.find?_cons, hpa]
      exact ih h
    · rw [hpa] at h
      exact absurd h (by simp)

theorem ensureChannel_fresh (reg : ChannelRegistry) (key : String)
    (h : reg.lookup key = Option.none) :
    (reg.ensureChannel key).1.name = reg.name ++ "-" ++ key ∧
    (reg.ensureChannel key).2.lookup key = some (reg.ensureChannel key).1 := by
  have hfind : reg.channels.find? (fun p => p.1 == key) = Option.none := by
    unfold ChannelRegistry.lookup at h
    rcases h' : reg.channels.find? (fun p => p.1 == key) with _ | p
    · exact h'
    · rw [h'] at h
      simp at h
  unfold ChannelRegistry.ensureChannel
  rw [h]
  refine ⟨rfl, ?_⟩
  unfold ChannelRegistry.lookup
  rw [find?_append_of_none _ _ _ hfind]
  simp [List.find?_cons]

/-- Claim C2: for every key `k`, `get_sender(k)` and `get_receiver(k)` return
endpoints of the same broadcast channel instance: the first call with an
unknown `k` creates a channel named `"{registry_name}-{k}"` and inserts it
under `k`, and every subsequent call with the same `k` (sender or receiver)
returns an endpoint of that same stored channel with the registry unchanged,
never allocating a new channel. -/
theorem c2_registry_single_channel_per_key (reg : ChannelRegistry)
    (key : String) :
    ((reg.get_sender key).1.chan = (reg.get_receiver key).1.chan ∧
      (reg.get_sender key).2 = (reg.get_receiver key).2) ∧
    (reg.lookup key = Option.none →
      (reg.get_sender key).1.chan.name = reg.name ++ "-" ++ key ∧
      (reg.get_sender key).2.lookup key = some (reg.get_sender key).1.chan) ∧
    (∀ ch : BChannel, reg.lookup key = some ch →
      reg.get_sender key = (⟨ch⟩, reg) ∧
      reg.get_receiver key = (⟨ch⟩, reg)) := by
  refine ⟨⟨rfl, rfl⟩, ?_, ?_⟩
  · intro h
    have hf := ensureChannel_fresh reg key h
    exact ⟨hf.1, hf.2⟩
  · intro ch h
    have hk := ensureChannel_known reg key ch h
    constructor
    · show (let p := reg.ensureChannel key; ((⟨p.1⟩, p.2) : BSender × ChannelRegistry)) = _
      rw [hk]
    · show (let p := reg.ensureChannel key; ((⟨p.1⟩, p.2) : BReceiver × ChannelRegistry)) = _
      rw [hk]

/-- Witness for C2 at a concrete registry and key: a fresh registry named
`"reg"` queried at key `"k"`. -/
theorem c2_registry_single_channel_per_key_witness :
    ((ChannelRegistry.mkNew "reg").get_sender "k").1.chan.name = "reg-k" ∧
    (((ChannelRegistry.mkNew "reg").get_sender "k").2.lookup "k" =
      some ((ChannelRegistry.mkNew "reg").get_sender "k").1.chan) := by
  have h := (c2_registry_single_channel_per_key (ChannelRegistry.mkNew "reg")
    "k").2.1 (by rfl)
  exact ⟨h.1, h.2⟩

/-! ## Component graph state (`component_graph.py` over `networkx.DiGraph`)

A `networkx.DiGraph` is modelled by a list of nodes (id paired with the
attribute data: `some c` when the node was added via `add_node(id,
**asdict(component))`, `Option.none` when the node only exists implicitly as
an edge endpoint and so has an empty attribute dict) and a list of directed
edges.  `DiGraph` has no parallel edges, so `addEdge` skips duplicates. -/

structure CGraph where
  nodes : List (Nat × Option Component)
  edges : List (Nat × Nat)
  deriving DecidableEq, Repr

/-- Errors a graph operation can raise: `KeyError` (unknown component id),
`TypeError` (`Component(**{})` on a node with no attribute data),
`InvalidGraphError` and `ValueError`. -/
inductive GErr where
  | keyError
  | typeError
  | invalidGraph
  | valueError
  deriving DecidableEq, Repr

/-- The empty graph (`ComponentGraph()` with no data). -/
def CGraph.empty : CGraph := ⟨[], []⟩

/-- The ids of the graph's nodes. -/
def CGraph.nodeIds (g : CGraph) : List Nat := g.nodes.map Prod.fst

/-- `component_id in self._graph`. -/
def CGraph.hasNode (g : CGraph) (n : Nat) : Bool :=
  g.nodes.any (fun p => p.1 == n)

/-- The attribute data stored at a node: `Option.none` if the node is absent,
`some d` with the node's data otherwise. -/
def CGraph.nodeData (g : CGraph) (n : Nat) : Option (Option Component) :=
  (g.nodes.find? (fun p => p.1 == n)).map Prod.snd

/-- `add_node(n, **asdict(c))`: overwrite the data if the node exists,
append it otherwise. -/
def CGraph.addNode (g : CGraph) (n : Nat) (c : Component) : CGraph :=
  if g.hasNode n then
    { g with nodes := g.nodes.map (fun p => if p.1 == n then (n, some c) else p) }
  else
    { g with nodes := g.nodes ++ [(n, some c)] }

/-- Implicit node creation performed by `add_edge` for a missing endpoint
(the node gets an empty attribute dict). -/
def CGraph.ensureNode (g : CGraph) (n : Nat) : CGraph :=
  if g.hasNode n then g else { g with nodes := g.nodes ++ [(n, Option.none)] }

/-- `add_edge(a, b)`: create missing endpoints, then add the edge unless it
already exists (`DiGraph` has no parallel edges). -/
def CGraph.addEdge (g : CGraph) (a b : Nat) : CGraph :=
  let g1 := (g.ensureNode a).ensureNode b
  if g1.edges.contains (a, b) then g1
  else { g1 with edges := g1.edges ++ [(a, b)] }

/-- `self._graph.in_degree(n)`. -/
def CGraph.inDegree (g : CGraph) (n : Nat) : Nat :=
  (g.edges.filter (fun e => e.2 == n)).length

/-- `self._graph.out_degree(n)`. -/
def CGraph.outDegree (g : CGraph) (n : Nat) : Nat :=
  (g.edges.filter (fun e => e.1 == n)).length

/-- `self._graph.degree(n)` (for a `DiGraph`: in-degree plus out-degree). -/
def CGraph.degree (g : CGraph) (n : Nat) : Nat :=
  g.inDegree n + g.outDegree n

/-- The component data of all nodes that carry data. -/
def CGraph.definedData (g : CGraph) : List Component :=
  g.nodes.filterMap Prod.snd

/-- The ids of nodes with an empty attribute dict (the `undefined` list of
`_validate_graph`). -/
def CGraph.undefinedNodes (g : CGraph) : List Nat :=
  (g.nodes.filter (fun p => p.2.isNone)).map Prod.fst

/-- `self.components()` with no filters: builds `Component(**attrs)` for
every node; raises `TypeError` when some node has an empty attribute dict. -/
def CGraph.componentsOf (g : CGraph) : Except GErr (List Component) :=
  if g.undefinedNodes.isEmpty then .ok g.definedData else .error .typeError

/-- `self.components(category, type)` with the optional filters of
`ComponentGraph.components`. -/
def CGraph.componentsFiltered (g : CGraph) (cat : Option ComponentCategory)
    (typ : Option InverterType) : Except GErr (List Component) := do
  let cs ← g.componentsOf
  let cs1 := match cat with
    | some cc => cs.filter (fun c => c.category == cc)
    | Option.none => cs
  let cs2 := match typ with
    | some t => cs1.filter (fun c => c.type == some t)
    | Option.none => cs1
  pure cs2

/-- `self.connections()`. -/
def CGraph.connectionsList (g : CGraph) : List Connection :=
  g.edges.map (fun e => ⟨e.1, e.2⟩)

/-- `self.component(component_id)`. -/
def CGraph.component (g : CGraph) (n : Nat) : Except GErr Component :=
  if g.hasNode n then
    match g.nodeData n with
    | some (some c) => .ok c
    | _ => .error .typeError
  else .error .keyError

/-- The ids of the direct successors of `n`. -/
def CGraph.succIds (g : CGraph) (n : Nat) : List Nat :=
  (g.edges.filter (fun e => e.1 == n)).map Prod.snd

/-- The ids of the direct predecessors of `n`. -/
def CGraph.predIds (g : CGraph) (n : Nat) : List Nat :=
  (g.edges.filter (fun e => e.2 == n)).map Prod.fst

/-- Reconstruct the component stored at each of the listed node ids
(`Component(**self._graph.nodes[idx])`). -/
def CGraph.dataAt (g : CGraph) : List Nat → Except GErr (List Component)
  | [] => .ok []
  | i :: rest =>
    match g.nodeData i with
    | some (some c) => do
      let others ← g.dataAt rest
      pure (c :: others)
    | _ => .error .typeError

/-- `self.successors(component_id)`: `KeyError` when the id is not a node,
otherwise the components stored at the successor ids. -/
def CGraph.successors (g : CGraph) (n : Nat) : Except GErr (List Component) :=
  if g.hasNode n then g.dataAt (g.succIds n) else .error .keyError

/-- `self.predecessors(component_id)`. -/
def CGraph.predecessors (g : CGraph) (n : Nat) : Except GErr (List Component) :=
  if g.hasNode n then g.dataAt (g.predIds n) else .error .keyError

/-! ### Acyclicity (`nx.is_directed_acyclic_graph`)

The networkx acyclicity test is modelled by Kahn's algorithm: repeatedly
remove a node with no incoming edge from the remaining nodes; the graph is
acyclic exactly when all nodes can be removed. -/

/-- `true` when node `n` has no incoming edge whose source is still in
`remaining`. -/
def noIncomingFrom (edges : List (Nat × Nat)) (remaining : List Nat)
    (n : Nat) : Bool :=
  edges.all (fun e => !(e.2 == n && remaining.contains e.1))

/-- One fuelled run of Kahn's algorithm over the listed remaining nodes. -/
def kahn (edges : List (Nat × Nat)) : Nat → List Nat → Bool
  | _, [] => true
  | 0, _ :: _ => false
  | fuel + 1, r :: rs =>
    match (r :: rs).find? (noIncomingFrom edges (r :: rs)) with
    | some n => kahn edges fuel ((r :: rs).filter (fun x => x != n))
    | Option.none => false

/-- The model of `nx.is_directed_acyclic_graph(self._graph)`. -/
def CGraph.isAcyclicB (g : CGraph) : Bool :=
  kahn g.edges g.nodeIds.length g.nodeIds

/-- A nonempty directed path along the edge list. -/
inductive PathIn (edges : List (Nat × Nat)) : Nat → Nat → Prop where
  | single {a b : Nat} : (a, b) ∈ edges → PathIn edges a b
  | cons {a c b : Nat} : (a, c) ∈ edges → PathIn edges c b → PathIn edges a b

theorem filter_ne_length_lt {n : Nat} {l : List Nat} (h : n ∈ l) :
    (l.filter (fun x => x != n)).length < l.length := by
  induction l with
  | nil => cases h
  | cons a t ih =>
    by_cases ha : a = n
    · subst ha
      rw [List.filter_cons_of_neg (by simp)]
      exact Nat.lt_succ_of_le (List.length_filter_le _ t)
    · rcases List.mem_cons.mp h with h' | h'
      · exact absurd h'.symm ha
      · rw [List.filter_cons_of_pos (by simp [ha])]
        exact Nat.succ_lt_succ (ih h')

/-- Soundness of the Kahn run: success yields a topological numbering of the
remaining nodes. -/
theorem kahn_topo (edges : List (Nat × Nat)) :
    ∀ (fuel : Nat) (rem : List Nat), kahn edges fuel rem = true →
    ∃ ord : Nat → Nat, ∀ a b : Nat, (a, b) ∈ edges → a ∈ rem → b ∈ rem →
      ord a < ord b := by
  intro fuel
  induction fuel with
  | zero =>
    intro rem h
    cases rem with
    | nil => exact ⟨id, by intro a b _ _ hb; cases hb⟩
    | cons r rs => simp [kahn] at h
  | succ fuel ih =>
    intro rem h
    cases rem with
    | nil => exact ⟨id, by intro a b _ _ hb; cases hb⟩
    | cons r rs =>
      rw [kahn] at h
      rcases hfind : (r :: rs).find? (noIncomingFrom edges (r :: rs)) with _ | n
      · rw [hfind] at h
        cases h
      · rw [hfind] at h
        have hmem : n ∈ r :: rs := List.mem_of_find?_eq_some hfind
        have hno : noIncomingFrom edges (r :: rs) n = true :=
          List.find?_some hfind
        rcases ih _ h with ⟨ord, hord⟩
        refine ⟨fun x => if x = n then 0 else ord x + 1, ?_⟩
        intro a b hab ha hb
        have hbn : b ≠ n := by
          intro hbeq
          subst hbeq
          unfold noIncomingFrom at hno
          have := List.all_eq_true.mp hno _ hab
          simp at this
          exact absurd ha (by simpa using this)
        have hbf : b ∈ (r :: rs).filter (fun x => x != n) := by
          rw [List.mem_filter]
          exact ⟨hb, by simp [hbn]⟩
        by_cases han : a = n
        · simp [han, hbn]
        · have haf : a ∈ (r :: rs).filter (fun x => x != n) := by
            rw [List.mem_filter]
            exact ⟨ha, by simp [han]⟩
          have := hord a b hab haf hbf
          simp [han, hbn]
          omega

/-- Every edge of the graph has both endpoints among the graph's nodes
(networkx guarantees this by construction; `addEdge` preserves it). -/
def EdgeClosed (g : CGraph) : Prop :=
  ∀ e ∈ g.edges, e.1 ∈ g.nodeIds ∧ e.2 ∈ g.nodeIds

theorem pathIn_ord_lt {edges : List (Nat × Nat)} {rem : List Nat}
    {ord : Nat → Nat}
    (hclosed : ∀ e ∈ edges, e.1 ∈ rem ∧ e.2 ∈ rem)
    (hord : ∀ a b : Nat, (a, b) ∈ edges → a ∈ rem → b ∈ rem → ord a < ord b)
    {a b : Nat} (hp : PathIn edges a b) : ord a < ord b := by
  induction hp with
  | single hab =>
    exact hord _ _ hab (hclosed _ hab).1 (hclosed _ hab).2
  | cons hac _ ih =>
    exact Nat.lt_trans (hord _ _ hac (hclosed _ hac).1 (hclosed _ hac).2) ih

/-- Soundness of the acyclicity check: if it succeeds on an edge-closed
graph, no node lies on a directed cycle. -/
theorem isAcyclicB_no_cycle {g : CGraph} (hclosed : EdgeClosed g)
    (h : g.isAcyclicB = true) : ∀ n : Nat, ¬ PathIn g.edges n n := by
  intro n hp
  rcases kahn_topo g.edges _ _ h with ⟨ord, hord⟩
  exact Nat.lt_irrefl _ (pathIn_ord_lt hclosed hord hp)

/-! ### Validation (`ComponentGraph.validate` and helpers) -/

/-- The sublist of `cs` whose members have no graph predecessors
(`missing_predecessors` in `_validate_intermediary_components` /
`_validate_leaf_components`); propagates the `KeyError` that
`self.predecessors` may raise. -/
def CGraph.missingPredecessors (g : CGraph) :
    List Component → Except GErr (List Component)
  | [] => .ok []
  | c :: rest => do
    let ps ← g.predecessors c.component_id
    let others ← g.missingPredecessors rest
    if ps.length = 0 then pure (c :: others) else pure others

/-- The sublist of `cs` whose members have graph successors
(`with_successors` in `_validate_leaf_components`). -/
def CGraph.withSuccessors (g : CGraph) :
    List Component → Except GErr (List Component)
  | [] => .ok []
  | c :: rest => do
    let ss ← g.successors c.component_id
    let others ← g.withSuccessors rest
    if ss.length > 0 then pure (c :: others) else pure others

/-- `_validate_graph`: nonempty node and edge sets, acyclicity, no node
without attribute data, at least one component and connection, and no
completely unconnected component. -/
def CGraph.validateGraph (g : CGraph) : Except GErr Unit :=
  if g.nodes.length = 0 then .error .invalidGraph
  else if g.edges.length = 0 then .error .invalidGraph
  else if !g.isAcyclicB then .error .invalidGraph
  else if !g.undefinedNodes.isEmpty then .error .invalidGraph
  else
    match g.componentsOf with
    | .error e => .error e
    | .ok cs =>
      if cs.length = 0 then .error .invalidGraph
      else if g.connectionsList.length = 0 then .error .invalidGraph
      else if cs.any (fun c => g.degree c.component_id == 0) then
        .error .invalidGraph
      else .ok ()

/-- Is this component a valid graph root (`category ∈ {NONE, GRID}`)? -/
def isValidRootCategory (c : Component) : Bool :=
  c.category == ComponentCategory.none || c.category == ComponentCategory.grid

/-- `_validate_graph_root`: among the components with no predecessors there
is exactly one of category `NONE` or `GRID`, and it has successors. -/
def CGraph.validateGraphRoot (g : CGraph) : Except GErr Unit :=
  match g.componentsOf with
  | .error e => .error e
  | .ok cs =>
    match (cs.filter (fun c =>
        g.inDegree c.component_id == 0)).filter isValidRootCategory with
    | [] => .error .invalidGraph
    | [root] =>
      if g.outDegree root.component_id = 0 then .error .invalidGraph
      else .ok ()
    | _ :: _ :: _ => .error .invalidGraph

/-- `_validate_grid_endpoint`: at most one `GRID` component; if present it
has no predecessors and at least one successor. -/
def CGraph.validateGridEndpoint (g : CGraph) : Except GErr Unit :=
  match g.componentsFiltered (some ComponentCategory.grid) Option.none with
  | .error e => .error e
  | .ok grid =>
    match grid with
    | [] => .ok ()
    | [gc] =>
      if g.inDegree gc.component_id > 0 then .error .invalidGraph
      else if g.outDegree gc.component_id = 0 then .error .invalidGraph
      else .ok ()
    | _ :: _ :: _ => .error .invalidGraph

/-- `_validate_intermediary_components`: every `INVERTER` has at least one
predecessor. -/
def CGraph.validateIntermediaryComponents (g : CGraph) : Except GErr Unit := do
  let inverters ← g.componentsFiltered (some ComponentCategory.inverter)
    Option.none
  let missing ← g.missingPredecessors inverters
  if missing.length > 0 then Except.error .invalidGraph else pure ()

/-- `_validate_leaf_components`: every `BATTERY` and `EV_CHARGER` has at
least one predecessor and no successors. -/
def CGraph.validateLeafComponents (g : CGraph) : Except GErr Unit := do
  let batteries ← g.componentsFiltered (some ComponentCategory.battery)
    Option.none
  let evs ← g.componentsFiltered (some ComponentCategory.evCharger)
    Option.none
  let leaf := batteries ++ evs
  let missing ← g.missingPredecessors leaf
  if missing.length > 0 then Except.error .invalidGraph
  else do
    let withSucc ← g.withSuccessors leaf
    if withSucc.length > 0 then Except.error .invalidGraph else pure ()

/-- `ComponentGraph.validate`. -/
def CGraph.validate (g : CGraph) : Except GErr Unit := do
  g.validateGraph
  g.validateGraphRoot
  g.validateGridEndpoint
  g.validateIntermediaryComponents
  g.validateLeafComponents

/-! ### `refresh_from` -/

/-- The provisional graph built by `refresh_from`: every component becomes a
node carrying its data, every connection becomes an edge (creating missing
endpoint nodes with empty data). -/
def buildGraph (components : List Component) (connections : List Connection) :
    CGraph :=
  let g := components.foldl (fun g c => g.addNode c.component_id c)
    CGraph.empty
  connections.foldl (fun g cn => g.addEdge cn.start cn.end_) g

/-- The graph candidate after the optional corrector pass of
`refresh_from`: when a corrector is given and the provisional graph fails
`validate`, the corrector is applied once. -/
def provisionalGraph (components : List Component)
    (connections : List Connection)
    (correct_errors : Option (CGraph → CGraph)) : CGraph :=
  match correct_errors with
  | some f =>
    match (buildGraph components connections).validate with
    | .ok _ => buildGraph components connections
    | .error _ => f (buildGraph components connections)
  | Option.none => buildGraph components connections

/-- `ComponentGraph.refresh_from`.  The `is_valid` checks of the external
client library are passed in as the predicates `compOk` and `connOk`; the
result is the new graph on success and the raised `InvalidGraphError` on
failure (every failure path of the Python code raises `InvalidGraphError`). -/
def refreshFrom (compOk : Component → Bool) (connOk : Connection → Bool)
    (components : List Component) (connections : List Connection)
    (correct_errors : Option (CGraph → CGraph)) : Except GErr CGraph :=
  if !components.all compOk then .error .invalidGraph
  else if !connections.all connOk then .error .invalidGraph
  else
    match (provisionalGraph components connections correct_errors).validate with
    | .ok _ => .ok (provisionalGraph components connections correct_errors)
    | .error _ => .error .invalidGraph

/-- The state transition performed on `self._graph` by `refresh_from`: the
field is reassigned only after validation succeeds, so on failure the
previously installed graph is kept and the error is surfaced. -/
def refreshFromState (g : CGraph) (compOk : Component → Bool)
    (connOk : Connection → Bool) (components : List Component)
    (connections : List Connection)
    (correct_errors : Option (CGraph → CGraph)) : CGraph × Option GErr :=
  match refreshFrom compOk connOk components connections correct_errors with
  | .ok g2 => (g2, Option.none)
  | .error e => (g, some e)

/-! ### C3: `refresh_from` is atomic on failure -/

theorem refreshFrom_error_invalidGraph (compOk : Component → Bool)
    (connOk : Connection → Bool) (components : List Component)
    (connections : List Connection) (corr : Option (CGraph → CGraph)) :
    (∀ e, refreshFrom compOk connOk components connections corr = .error e →
      e = GErr.invalidGraph) ∧
    (∀ g2, refreshFrom compOk connOk components connections corr = .ok g2 →
      g2.validate = .ok ()) := by
  unfold refreshFrom
  constructor
  · intro e h
    split at h
    · cases h
      rfl
    · split at h
      · cases h
        rfl
      · split at h
        · cases h
        · cases h
          rfl
  · intro g2 h
    split at h
    · cases h
    · split at h
      · cases h
      · split at h
        next u heq =>
          cases h
          cases u
          exact heq
        · cases h

/-- Claim C3: `refresh_from` is atomic on failure.  Whenever the call fails
(invalid input components or connections, or a provisional graph that does
not validate even after the one corrector invocation), the raised error is
`InvalidGraphError`, the installed graph is exactly the previous one — so
`component`, `components`, `connections`, `predecessors` and `successors`
all answer as before the call — and when the call succeeds the newly
installed graph is one that passes `validate`. -/
theorem c3_refresh_from_atomic (g : CGraph) (compOk : Component → Bool)
    (connOk : Connection → Bool) (components : List Component)
    (connections : List Connection) (corr : Option (CGraph → CGraph)) :
    (∀ e, (refreshFromState g compOk connOk components connections corr).2 =
        some e →
      e = GErr.invalidGraph ∧
      (refreshFromState g compOk connOk components connections corr).1 = g ∧
      (∀ i, (refreshFromState g compOk connOk components connections
        corr).1.component i = g.component i) ∧
      (refreshFromState g compOk connOk components connections
        corr).1.componentsOf = g.componentsOf ∧
      (refreshFromState g compOk connOk components connections
        corr).1.connectionsList = g.connectionsList ∧
      (∀ i, (refreshFromState g compOk connOk components connections
        corr).1.predecessors i = g.predecessors i) ∧
      (∀ i, (refreshFromState g compOk connOk components connections
        corr).1.successors i = g.successors i)) ∧
    ((refreshFromState g compOk connOk components connections corr).2 =
        Option.none →
      (refreshFromState g compOk connOk components connections
        corr).1.validate = .ok ()) := by
  have hcases := refreshFrom_error_invalidGraph compOk connOk components
    connections corr
  rcases hr : refreshFrom compOk connOk components connections corr with e0 | g2
  · have hs : refreshFromState g compOk connOk components connections corr =
        (g, some e0) := by
      unfold refreshFromState
      rw [hr]
    rw [hs]
    constructor
    · intro e h
      cases h
      exact ⟨hcases.1 _ hr, rfl, fun i => rfl, rfl, rfl, fun i => rfl,
        fun i => rfl⟩
    · intro h
      cases h
  · have hs : refreshFromState g compOk connOk components connections corr =
        (g2, Option.none) := by
      unfold refreshFromState
      rw [hr]
    rw [hs]
    constructor
    · intro e h
      cases h
    · intro _
      exact hcases.2 g2 hr

/-- Witness for C3: refreshing an installed one-edge graph with an empty
connection list (which fails validation) keeps the old graph and raises
`InvalidGraphError`. -/
theorem c3_refresh_from_atomic_witness :
    (refreshFromState
        (buildGraph [⟨1, ComponentCategory.grid, Option.none⟩,
          ⟨2, ComponentCategory.meter, Option.none⟩] [⟨1, 2⟩])
        (fun _ => true) (fun _ => true)
        [⟨1, ComponentCategory.grid, Option.none⟩] [] Option.none).2 =
      some GErr.invalidGraph ∧
    (refreshFromState
        (buildGraph [⟨1, ComponentCategory.grid, Option.none⟩,
          ⟨2, ComponentCategory.meter, Option.none⟩] [⟨1, 2⟩])
        (fun _ => true) (fun _ => true)
        [⟨1, ComponentCategory.grid, Option.none⟩] [] Option.none).1 =
      buildGraph [⟨1, ComponentCategory.grid, Option.none⟩,
        ⟨2, ComponentCategory.meter, Option.none⟩] [⟨1, 2⟩] := by
  have hsome : (refreshFromState
      (buildGraph [⟨1, ComponentCategory.grid, Option.none⟩,
        ⟨2, ComponentCategory.meter, Option.none⟩] [⟨1, 2⟩])
      (fun _ => true) (fun _ => true)
      [⟨1, ComponentCategory.grid, Option.none⟩] [] Option.none).2 =
      some GErr.invalidGraph := by rfl
  have h := ((c3_refresh_from_atomic
    (buildGraph [⟨1, ComponentCategory.grid, Option.none⟩,
      ⟨2, ComponentCategory.meter, Option.none⟩] [⟨1, 2⟩])
    (fun _ => true) (fun _ => true)
    [⟨1, ComponentCategory.grid, Option.none⟩] [] Option.none).1
    GErr.invalidGraph hsome)
  exact ⟨hsome, h.2.1⟩

/-! ### C4: structural invariants guaranteed by `validate` -/

theorem except_bind_ok {ε α β : Type} {x : Except ε α} {f : α → Except ε β}
    {b : β} (h : (x >>= f) = .ok b) : ∃ a, x = .ok a ∧ f a = .ok b := by
  cases x with
  | error e =>
    simp only [Bind.bind, Except.bind] at h
    cases h
  | ok a =>
    refine ⟨a, rfl, ?_⟩
    simpa only [Bind.bind, Except.bind] using h

theorem validate_ok_parts {g : CGraph} (h : g.validate = .ok ()) :
    g.validateGraph = .ok () ∧ g.validateGraphRoot = .ok () ∧
    g.validateGridEndpoint = .ok () ∧
    g.validateIntermediaryComponents = .ok () ∧
    g.validateLeafComponents = .ok () := by
  unfold CGraph.validate at h
  rcases except_bind_ok h with ⟨⟨⟩, h1, h⟩
  rcases except_bind_ok h with ⟨⟨⟩, h2, h⟩
  rcases except_bind_ok h with ⟨⟨⟩, h3, h⟩
  rcases except_bind_ok h with ⟨⟨⟩, h4, h5⟩
  exact ⟨h1, h2, h3, h4, h5⟩

theorem componentsOf_ok {g : CGraph} {cs : List Component}
    (h : g.componentsOf = .ok cs) : cs = g.definedData := by
  unfold CGraph.componentsOf at h
  split at h
  · cases h
    rfl
  · cases h

theorem validateGraph_ok_facts {g : CGraph} (h : g.validateGraph = .ok ()) :
    g.nodes ≠ [] ∧ g.edges ≠ [] ∧ g.isAcyclicB = true := by
  unfold CGraph.validateGraph at h
  split at h
  · cases h
  next h1 =>
    split at h
    · cases h
    next h2 =>
      split at h
      · cases h
      next h3 =>
        refine ⟨?_, ?_, ?_⟩
        · intro hn
          exact h1 (by rw [hn]; rfl)
        · intro hn
          exact h2 (by rw [hn]; rfl)
        · simpa using h3

theorem dataAt_ok_length {g : CGraph} :
    ∀ {ids : List Nat} {cs : List Component}, g.dataAt ids = .ok cs →
    cs.length = ids.length := by
  intro ids
  induction ids with
  | nil =>
    intro cs h
    unfold CGraph.dataAt at h
    cases h
    rfl
  | cons i rest ih =>
    intro cs h
    unfold CGraph.dataAt at h
    split at h
    · rcases except_bind_ok h with ⟨others, hrec, hpure⟩
      cases hpure
      simpa using ih hrec
    · cases h

theorem predecessors_ok_length {g : CGraph} {n : Nat} {ps : List Component}
    (h : g.predecessors n = .ok ps) : ps.length = g.inDegree n := by
  unfold CGraph.predecessors at h
  split at h
  · rw [dataAt_ok_length h]
    unfold CGraph.predIds CGraph.inDegree
    simp
  · cases h

theorem successors_ok_length {g : CGraph} {n : Nat} {ss : List Component}
    (h : g.successors n = .ok ss) : ss.length = g.outDegree n := by
  unfold CGraph.successors at h
  split at h
  · rw [dataAt_ok_length h]
    unfold CGraph.succIds CGraph.outDegree
    simp
  · cases h

theorem missingPredecessors_ok_nil {g : CGraph} :
    ∀ {l : List Component}, g.missingPredecessors l = .ok [] →
    ∀ c ∈ l, ∃ ps, g.predecessors c.component_id = .ok ps ∧ ps.length ≠ 0 := by
  intro l
  induction l with
  | nil =>
    intro _ c hc
    cases hc
  | cons a rest ih =>
    intro h c hc
    unfold CGraph.missingPredecessors at h
    rcases except_bind_ok h with ⟨ps, hps, h⟩
    rcases except_bind_ok h with ⟨others, hrec, h⟩
    split at h
    · cases h
    next hlen =>
      cases h
      rcases List.mem_cons.mp hc with hc | hc
      · subst hc
        exact ⟨ps, hps, hlen⟩
      · exact ih hrec c hc

theorem withSuccessors_ok_nil {g : CGraph} :
    ∀ {l : List Component}, g.withSuccessors l = .ok [] →
    ∀ c ∈ l, ∃ ss, g.successors c.component_id = .ok ss ∧ ss.length = 0 := by
  intro l
  induction l with
  | nil =>
    intro _ c hc
    cases hc
  | cons a rest ih =>
    intro h c hc
    unfold CGraph.withSuccessors at h
    rcases except_bind_ok h with ⟨ss, hss, h⟩
    rcases except_bind_ok h with ⟨others, hrec, h⟩
    split at h
    · cases h
    next hlen =>
      cases h
      rcases List.mem_cons.mp hc with hc | hc
      · subst hc
        exact ⟨ss, hss, by omega⟩
      · exact ih hrec c hc

theorem componentsFiltered_cat_ok {g : CGraph} {cat : ComponentCategory}
    {cs : List Component}
    (h : g.componentsFiltered (some cat) Option.none = .ok cs) :
    cs = g.definedData.filter (fun c => c.category == cat) := by
  unfold CGraph.componentsFiltered at h
  rcases except_bind_ok h with ⟨cs0, hcs0, h⟩
  cases h
  rw [componentsOf_ok hcs0]

theorem filter_eq_singleton {α : Type} {p : α → Bool} {l : List α} {a : α}
    (h : l.filter p = [a]) :
    a ∈ l ∧ p a = true ∧ ∀ b ∈ l, p b = true → b = a := by
  have ha : a ∈ l.filter p := by
    rw [h]
    exact List.mem_singleton.mpr rfl
  rw [List.mem_filter] at ha
  refine ⟨ha.1, ha.2, ?_⟩
  intro b hb hpb
  have : b ∈ l.filter p := List.mem_filter.mpr ⟨hb, hpb⟩
  rw [h] at this
  exact List.mem_singleton.mp this

theorem validateGraphRoot_ok_facts {g : CGraph}
    (h : g.validateGraphRoot = .ok ()) :
    ∃ root,
      ((g.definedData.filter (fun c =>
        g.inDegree c.component_id == 0)).filter isValidRootCategory)
        = [root] ∧
      g.outDegree root.component_id ≠ 0 := by
  unfold CGraph.validateGraphRoot at h
  split at h
  · cases h
  next cs hcs =>
    have hcsd := componentsOf_ok hcs
    subst hcsd
    split at h
    · cases h
    next root heq =>
      split at h
      · cases h
      next hout =>
        exact ⟨root, heq, hout⟩
    · cases h

/-- Claim C4: every graph accepted by `validate` has at least one node and
one edge, is acyclic (no directed cycle through any node), has exactly one
component with in-degree zero and category in `{GRID, NONE}` — the root —
whose out-degree is at least one, and every `BATTERY`/`EV_CHARGER`
component has in-degree at least one and out-degree zero while every
`INVERTER` component has in-degree at least one. -/
theorem c4_validate_invariants (g : CGraph) (hclosed : EdgeClosed g)
    (hok : g.validate = .ok ()) :
    g.nodes ≠ [] ∧ g.edges ≠ [] ∧
    (∀ n : Nat, ¬ PathIn g.edges n n) ∧
    (∃ root, root ∈ g.definedData ∧
      g.inDegree root.component_id = 0 ∧
      isValidRootCategory root = true ∧
      1 ≤ g.outDegree root.component_id ∧
      ∀ c ∈ g.definedData, g.inDegree c.component_id = 0 →
        isValidRootCategory c = true → c = root) ∧
    (∀ c ∈ g.definedData,
      (c.category = ComponentCategory.battery ∨
        c.category = ComponentCategory.evCharger) →
      1 ≤ g.inDegree c.component_id ∧ g.outDegree c.component_id = 0) ∧
    (∀ c ∈ g.definedData, c.category = ComponentCategory.inverter →
      1 ≤ g.inDegree c.component_id) := by
  rcases validate_ok_parts hok with ⟨hg, hroot, _, hint, hleaf⟩
  rcases validateGraph_ok_facts hg with ⟨hnodes, hedges, hacyc⟩
  refine ⟨hnodes, hedges, isAcyclicB_no_cycle hclosed hacyc, ?_, ?_, ?_⟩
  · rcases validateGraphRoot_ok_facts hroot with ⟨root, hfilter, hout⟩
    rcases filter_eq_singleton hfilter with ⟨hmem, hprop, huniq⟩
    rw [List.mem_filter] at hmem
    refine ⟨root, hmem.1, by simpa using hmem.2, hprop, by omega, ?_⟩
    intro c hc hin hcat
    exact huniq c (List.mem_filter.mpr ⟨hc, by simp [hin]⟩) hcat
  · unfold CGraph.validateLeafComponents at hleaf
    rcases except_bind_ok hleaf with ⟨bs, hbs, hleaf⟩
    rcases except_bind_ok hleaf with ⟨evs, hevs, hleaf⟩
    rcases except_bind_ok hleaf with ⟨missing, hmiss, hleaf⟩
    split at hleaf
    · cases hleaf
    next hmlen =>
      rcases except_bind_ok hleaf with ⟨withSucc, hws, hleaf⟩
      split at hleaf
      · cases hleaf
      next hwlen =>
        have hmnil : missing = [] := by
          cases missing with
          | nil => rfl
          | cons a t => simp at hmlen
        have hwnil : withSucc = [] := by
          cases withSucc with
          | nil => rfl
          | cons a t => simp at hwlen
        subst hmnil
        subst hwnil
        intro c hc hcat
        have hcin : c ∈ bs ++ evs := by
          rw [componentsFiltered_cat_ok hbs, componentsFiltered_cat_ok hevs]
          rcases hcat with hcat | hcat
          · exact List.mem_append_left _
              (List.mem_filter.mpr ⟨hc, by rw [hcat]; rfl⟩)
          · exact List.mem_append_right _
              (List.mem_filter.mpr ⟨hc, by rw [hcat]; rfl⟩)
        rcases missingPredecessors_ok_nil hmiss c hcin with ⟨ps, hps, hplen⟩
        rcases withSuccessors_ok_nil hws c hcin with ⟨ss, hss, hslen⟩
        have h1 := predecessors_ok_length hps
        have h2 := successors_ok_length hss
        constructor
        · omega
        · omega
  · unfold CGraph.validateIntermediaryComponents at hint
    rcases except_bind_ok hint with ⟨invs, hinvs, hint⟩
    rcases except_bind_ok hint with ⟨missing, hmiss, hint⟩
    split at hint
    · cases hint
    next hmlen =>
      have hmnil : missing = [] := by
        cases missing with
        | nil => rfl
        | cons a t => simp at hmlen
      subst hmnil
      intro c hc hcat
      have hcin : c ∈ invs := by
        rw [componentsFiltered_cat_ok hinvs]
        exact List.mem_filter.mpr ⟨hc, by rw [hcat]; rfl⟩
      rcases missingPredecessors_ok_nil hmiss c hcin with ⟨ps, hps, hplen⟩
      have h1 := predecessors_ok_length hps
      omega

/-- A concrete valid microgrid: grid 1 → meter 2 → battery inverter 3 →
battery 4. -/
def gExample : CGraph :=
  buildGraph
    [⟨1, ComponentCategory.grid, Option.none⟩,
     ⟨2, ComponentCategory.meter, Option.none⟩,
     ⟨3, ComponentCategory.inverter, some InverterType.battery⟩,
     ⟨4, ComponentCategory.battery, Option.none⟩]
    [⟨1, 2⟩, ⟨2, 3⟩, ⟨3, 4⟩]

/-- Witness for C4 at the concrete graph `gExample`. -/
theorem c4_validate_invariants_witness :
    EdgeClosed gExample ∧ gExample.validate = .ok () ∧
    (∀ n : Nat, ¬ PathIn gExample.edges n n) := by
  have hclosed : EdgeClosed gExample := by
    unfold EdgeClosed
    decide
  have hok : gExample.validate = .ok () := by rfl
  exact ⟨hclosed, hok, (c4_validate_invariants gExample hclosed hok).2.2.1⟩

/-! ## Component-class helpers (`_graph_traversal.py`) -/

/-- `is_pv_inverter`: an inverter of type `SOLAR`. -/
def is_pv_inverter (c : Component) : Bool :=
  c.category == ComponentCategory.inverter && c.type == some InverterType.solar

/-- `is_battery_inverter`: an inverter of type `BATTERY`. -/
def is_battery_inverter (c : Component) : Bool :=
  c.category == ComponentCategory.inverter &&
    c.type == some InverterType.battery

/-- `is_chp`. -/
def is_chp (c : Component) : Bool :=
  c.category == ComponentCategory.chp

/-- `is_ev_charger`. -/
def is_ev_charger (c : Component) : Bool :=
  c.category == ComponentCategory.evCharger

/-! ## Meter-role predicates (`ComponentGraph.is_*_meter`) -/

/-- `ComponentGraph.is_grid_meter`: a `METER` whose single predecessor is the
`GRID` component, the meter being the grid's only successor. -/
def CGraph.is_grid_meter (g : CGraph) (component : Component) :
    Except GErr Bool :=
  if component.category != ComponentCategory.meter then .ok false
  else
    match g.predecessors component.component_id with
    | .error e => .error e
    | .ok predecessors =>
      match predecessors with
      | [p] =>
        if p.category != ComponentCategory.grid then .ok false
        else
          match g.successors p.component_id with
          | .error e => .error e
          | .ok grid_successors => .ok (grid_successors.length == 1)
      | _ => .ok false

/-- `ComponentGraph.is_pv_meter`: a non-grid `METER` all of whose (at least
one) successors are PV inverters.  The successor lookup runs first, as in
the source. -/
def CGraph.is_pv_meter (g : CGraph) (component : Component) :
    Except GErr Bool :=
  match g.successors component.component_id with
  | .error e => .error e
  | .ok successors =>
    if component.category != ComponentCategory.meter then .ok false
    else
      match g.is_grid_meter component with
      | .error e => .error e
      | .ok gm =>
        if gm then .ok false
        else .ok (successors.length > 0 && successors.all is_pv_inverter)

/-- `ComponentGraph.is_ev_charger_meter`. -/
def CGraph.is_ev_charger_meter (g : CGraph) (component : Component) :
    Except GErr Bool :=
  match g.successors component.component_id with
  | .error e => .error e
  | .ok successors =>
    if component.category != ComponentCategory.meter then .ok false
    else
      match g.is_grid_meter component with
      | .error e => .error e
      | .ok gm =>
        if gm then .ok false
        else .ok (successors.length > 0 && successors.all is_ev_charger)

/-- `ComponentGraph.is_battery_meter`. -/
def CGraph.is_battery_meter (g : CGraph) (component : Component) :
    Except GErr Bool :=
  match g.successors component.component_id with
  | .error e => .error e
  | .ok successors =>
    if component.category != ComponentCategory.meter then .ok false
    else
      match g.is_grid_meter component with
      | .error e => .error e
      | .ok gm =>
        if gm then .ok false
        else .ok (successors.length > 0 &&
          successors.all is_battery_inverter)

/-- `ComponentGraph.is_chp_meter`. -/
def CGraph.is_chp_meter (g : CGraph) (component : Component) :
    Except GErr Bool :=
  match g.successors component.component_id with
  | .error e => .error e
  | .ok successors =>
    if component.category != ComponentCategory.meter then .ok false
    else
      match g.is_grid_meter component with
      | .error e => .error e
      | .ok gm =>
        if gm then .ok false
        else .ok (successors.length > 0 && successors.all is_chp)

/-! ### C9: the meter roles are pairwise mutually exclusive -/

theorem is_pv_meter_true_facts {g : CGraph} {c : Component}
    (h : g.is_pv_meter c = .ok true) :
    g.is_grid_meter c = .ok false ∧
    ∃ ss, g.successors c.component_id = .ok ss ∧ ss ≠ [] ∧
      ∀ s ∈ ss, is_pv_inverter s = true := by
  unfold CGraph.is_pv_meter at h
  split at h
  · cases h
  next ss hss =>
    split at h
    · cases h
    next hcat =>
      split at h
      · cases h
      next gm hgm =>
        split at h
        · simp at h
        next hgmval =>
          simp at h
          rw [Bool.not_eq_true] at hgmval
          subst hgmval
          refine ⟨hgm, ss, hss, ?_, ?_⟩
          · intro hnil
            rw [hnil] at h
            simp at h
          · exact h.2

theorem is_ev_charger_meter_true_facts {g : CGraph} {c : Component}
    (h : g.is_ev_charger_meter c = .ok true) :
    g.is_grid_meter c = .ok false ∧
    ∃ ss, g.successors c.component_id = .ok ss ∧ ss ≠ [] ∧
      ∀ s ∈ ss, is_ev_charger s = true := by
  unfold CGraph.is_ev_charger_meter at h
  split at h
  · cases h
  next ss hss =>
    split at h
    · cases h
    next hcat =>
      split at h
      · cases h
      next gm hgm =>
        split at h
        · simp at h
        next hgmval =>
          simp at h
          rw [Bool.not_eq_true] at hgmval
          subst hgmval
          refine ⟨hgm, ss, hss, ?_, ?_⟩
          · intro hnil
            rw [hnil] at h
            simp at h
          · exact h.2

theorem is_battery_meter_true_facts {g : CGraph} {c : Component}
    (h : g.is_battery_meter c = .ok true) :
    g.is_grid_meter c = .ok false ∧
    ∃ ss, g.successors c.component_id = .ok ss ∧ ss ≠ [] ∧
      ∀ s ∈ ss, is_battery_inverter s = true := by
  unfold CGraph.is_battery_meter at h
  split at h
  · cases h
  next ss hss =>
    split at h
    · cases h
    next hcat =>
      split at h
      · cases h
      next gm hgm =>
        split at h
        · simp at h
        next hgmval =>
          simp at h
          rw [Bool.not_eq_true] at hgmval
          subst hgmval
          refine ⟨hgm, ss, hss, ?_, ?_⟩
          · intro hnil
            rw [hnil] at h
            simp at h
          · exact h.2

theorem is_chp_meter_true_facts {g : CGraph} {c : Component}
    (h : g.is_chp_meter c = .ok true) :
    g.is_grid_meter c = .ok false ∧
    ∃ ss, g.successors c.component_id = .ok ss ∧ ss ≠ [] ∧
      ∀ s ∈ ss, is_chp s = true := by
  unfold CGraph.is_chp_meter at h
  split at h
  · cases h
  next ss hss =>
    split at h
    · cases h
    next hcat =>
      split at h
      · cases h
      next gm hgm =>
        split at h
        · simp at h
        next hgmval =>
          simp at h
          rw [Bool.not_eq_true] at hgmval
          subst hgmval
          refine ⟨hgm, ss, hss, ?_, ?_⟩
          · intro hnil
            rw [hnil] at h
            simp at h
          · exact h.2

theorem component_class_disjoint (s : Component) :
    (is_pv_inverter s = true → is_battery_inverter s = false) ∧
    (is_pv_inverter s = true → is_ev_charger s = false) ∧
    (is_pv_inverter s = true → is_chp s = false) ∧
    (is_battery_inverter s = true → is_ev_charger s = false) ∧
    (is_battery_inverter s = true → is_chp s = false) ∧
    (is_ev_charger s = true → is_chp s = false) := by
  unfold is_pv_inverter is_battery_inverter is_ev_charger is_chp
  rcases s with ⟨i, cat, typ⟩
  cases cat <;> rcases typ with _ | t <;> first
    | (cases t <;> simp)
    | simp

/-- Claim C9: for every graph and component, at most one of the five meter
role predicates `is_grid_meter`, `is_pv_meter`, `is_ev_charger_meter`,
`is_battery_meter`, `is_chp_meter` answers `True`: the four non-grid roles
each exclude grid meters explicitly and each require a non-empty successor
set drawn entirely from one of four pairwise-disjoint component classes. -/
theorem c9_meter_roles_mutually_exclusive (g : CGraph) (c : Component)
    (r1 r2 r3 r4 r5 : Bool)
    (h1 : g.is_grid_meter c = .ok r1)
    (h2 : g.is_pv_meter c = .ok r2)
    (h3 : g.is_ev_charger_meter c = .ok r3)
    (h4 : g.is_battery_meter c = .ok r4)
    (h5 : g.is_chp_meter c = .ok r5) :
    ([r1, r2, r3, r4, r5].count true) ≤ 1 := by
  have e21 : r2 = true → r1 = false := by
    intro hr
    subst hr
    have hf := (is_pv_meter_true_facts h2).1
    rw [h1] at hf
    exact (Except.ok.inj hf)
  have e31 : r3 = true → r1 = false := by
    intro hr
    subst hr
    have hf := (is_ev_charger_meter_true_facts h3).1
    rw [h1] at hf
    exact (Except.ok.inj hf)
  have e41 : r4 = true → r1 = false := by
    intro hr
    subst hr
    have hf := (is_battery_meter_true_facts h4).1
    rw [h1] at hf
    exact (Except.ok.inj hf)
  have e51 : r5 = true → r1 = false := by
    intro hr
    subst hr
    have hf := (is_chp_meter_true_facts h5).1
    rw [h1] at hf
    exact (Except.ok.inj hf)
  have e23 : r2 = true → r3 = true → False := by
    intro hr2 hr3
    subst hr2; subst hr3
    rcases (is_pv_meter_true_facts h2).2 with ⟨ss, hss, hne, hall⟩
    rcases (is_ev_charger_meter_true_facts h3).2 with ⟨ss', hss', _, hall'⟩
    rw [hss] at hss'
    cases Except.ok.inj hss'
    rcases List.exists_mem_of_ne_nil ss hne with ⟨s, hs⟩
    have := (component_class_disjoint s).2.1 (hall s hs)
    rw [hall' s hs] at this
    cases this
  have e24 : r2 = true → r4 = true → False := by
    intro hr2 hr4
    subst hr2; subst hr4
    rcases (is_pv_meter_true_facts h2).2 with ⟨ss, hss, hne, hall⟩
    rcases (is_battery_meter_true_facts h4).2 with ⟨ss', hss', _, hall'⟩
    rw [hss] at hss'
    cases Except.ok.inj hss'
    rcases List.exists_mem_of_ne_nil ss hne with ⟨s, hs⟩
    have := (component_class_disjoint s).1 (hall s hs)
    rw [hall' s hs] at this
    cases this
  have e25 : r2 = true → r5 = true → False := by
    intro hr2 hr5
    subst hr2; subst hr5
    rcases (is_pv_meter_true_facts h2).2 with ⟨ss, hss, hne, hall⟩
    rcases (is_chp_meter_true_facts h5).2 with ⟨ss', hss', _, hall'⟩
    rw [hss] at hss'
    cases Except.ok.inj hss'
    rcases List.exists_mem_of_ne_nil ss hne with ⟨s, hs⟩
    have := (component_class_disjoint s).2.2.1 (hall s hs)
    rw [hall' s hs] at this
    cases this
  have e34 : r3 = true → r4 = true → False := by
    intro hr3 hr4
    subst hr3; subst hr4
    rcases (is_ev_charger_meter_true_facts h3).2 with ⟨ss, hss, hne, hall⟩
    rcases (is_battery_meter_true_facts h4).2 with ⟨ss', hss', _, hall'⟩
    rw [hss] at hss'
    cases Except.ok.inj hss'
    rcases List.exists_mem_of_ne_nil ss hne with ⟨s, hs⟩
    have := (component_class_disjoint s).2.2.2.1 (hall' s hs)
    rw [hall s hs] at this
    cases this
  have e35 : r3 = true → r5 = true → False := by
    intro hr3 hr5
    subst hr3; subst hr5
    rcases (is_ev_charger_meter_true_facts h3).2 with ⟨ss, hss, hne, hall⟩
    rcases (is_chp_meter_true_facts h5).2 with ⟨ss', hss', _, hall'⟩
    rw [hss] at hss'
    cases Except.ok.inj hss'
    rcases List.exists_mem_of_ne_nil ss hne with ⟨s, hs⟩
    have := (component_class_disjoint s).2.2.2.2.2 (hall s hs)
    rw [hall' s hs] at this
    cases this
  have e45 : r4 = true → r5 = true → False := by
    intro hr4 hr5
    subst hr4; subst hr5
    rcases (is_battery_meter_true_facts h4).2 with ⟨ss, hss, hne, hall⟩
    rcases (is_chp_meter_true_facts h5).2 with ⟨ss', hss', _, hall'⟩
    rw [hss] at hss'
    cases Except.ok.inj hss'
    rcases List.exists_mem_of_ne_nil ss hne with ⟨s, hs⟩
    have := (component_class_disjoint s).2.2.2.2.1 (hall s hs)
    rw [hall' s hs] at this
    cases this
  cases r1 <;> cases r2 <;> cases r3 <;> cases r4 <;> cases r5 <;>
    simp_all

/-- Witness for C9: the meter of `gExample` is a grid meter and no other
role, so at most one role holds. -/
theorem c9_meter_roles_mutually_exclusive_witness :
    ([true, false, false, false, false].count true) ≤ 1 :=
  c9_meter_roles_mutually_exclusive gExample
    ⟨2, ComponentCategory.meter, Option.none⟩ true false false false false
    (by rfl) (by rfl) (by rfl) (by rfl) (by rfl)

/-! ### C10: behaviour of the meter-role predicates off the graph -/

theorem successors_missing {g : CGraph} {n : Nat}
    (h : g.hasNode n = false) : g.successors n = .error .keyError := by
  unfold CGraph.successors
  rw [h]
  rfl

/-- Claim C10: for a component whose id is not a node of the graph,
`is_battery_meter`, `is_pv_meter`, `is_ev_charger_meter` and `is_chp_meter`
raise `KeyError` (the successor lookup precedes the category test), while
`is_grid_meter` on any component whose category is not `METER` returns
`False` without touching the graph. -/
theorem c10_meter_roles_missing_component (g : CGraph) (c : Component) :
    (g.hasNode c.component_id = false →
      g.is_battery_meter c = .error .keyError ∧
      g.is_pv_meter c = .error .keyError ∧
      g.is_ev_charger_meter c = .error .keyError ∧
      g.is_chp_meter c = .error .keyError) ∧
    (c.category ≠ ComponentCategory.meter →
      g.is_grid_meter c = .ok false) := by
  constructor
  · intro h
    have hs := successors_missing (n := c.component_id) h
    refine ⟨?_, ?_, ?_, ?_⟩
    · unfold CGraph.is_battery_meter
      rw [hs]
    · unfold CGraph.is_pv_meter
      rw [hs]
    · unfold CGraph.is_ev_charger_meter
      rw [hs]
    · unfold CGraph.is_chp_meter
      rw [hs]
  · intro h
    unfold CGraph.is_grid_meter
    rw [if_pos]
    simpa using h

/-- Witness for C10: component 99 is not in `gExample`, and a non-meter
component is never a grid meter. -/
theorem c10_meter_roles_missing_component_witness :
    gExample.is_battery_meter ⟨99, ComponentCategory.meter, Option.none⟩ =
      .error .keyError ∧
    gExample.is_grid_meter ⟨99, ComponentCategory.battery, Option.none⟩ =
      .ok false := by
  constructor
  · exact ((c10_meter_roles_missing_component gExample
      ⟨99, ComponentCategory.meter, Option.none⟩).1 (by rfl)).1
  · exact (c10_meter_roles_missing_component gExample
      ⟨99, ComponentCategory.battery, Option.none⟩).2 (by decide)

/-! ## `find_first_descendant_component` (`_graph_traversal.py`) -/

instance : IsTotal Component
    (fun a b : Component => a.component_id ≤ b.component_id) :=
  ⟨fun a b => Nat.le_total a.component_id b.component_id⟩

instance : IsTrans Component
    (fun a b : Component => a.component_id ≤ b.component_id) :=
  ⟨fun _ _ _ hab hbc => Nat.le_trans hab hbc⟩

/-- `find_first_descendant_component(graph, root_category=...,
descendant_categories=...)`: take the first component of `root_category`,
sort its direct successors by `component_id` (Python `sorted` is a stable
sort, modelled by insertion sort), and return the first successor whose
category is the earliest-listed descendant category that yields a hit;
`ValueError` when there is no root or no hit. -/
def find_first_descendant_component (g : CGraph)
    (root_category : ComponentCategory)
    (descendant_categories : List ComponentCategory) : Except GErr Component :=
  match g.componentsOf with
  | .error e => .error e
  | .ok comps =>
    match comps.find? (fun c => c.category == root_category) with
    | Option.none => .error .valueError
    | some root_component =>
      match g.successors root_component.component_id with
      | .error e => .error e
      | .ok succs =>
        let sorted := succs.insertionSort
          (fun a b => a.component_id ≤ b.component_id)
        match descendant_categories.findSome?
            (fun cat => sorted.find? (fun comp => comp.category == cat)) with
        | Option.none => .error .valueError
        | some comp => .ok comp

/-! ### C5: specification of `find_first_descendant_component` -/

theorem findSome?_eq_none_of_all {α β : Type} {f : α → Option β} :
    ∀ {l : List α}, (∀ x ∈ l, f x = Option.none) →
    l.findSome? f = Option.none := by
  intro l
  induction l with
  | nil =>
    intro _
    rfl
  | cons a t ih =>
    intro h
    rw [List.findSome?_cons, h a (List.mem_cons_self a t)]
    exact ih (fun x hx => h x (List.mem_cons_of_mem a hx))

theorem findSome?_eq_some_split {α β : Type} {f : α → Option β} {b : β} :
    ∀ {l : List α}, l.findSome? f = some b →
    ∃ l1 a l2, l = l1 ++ a :: l2 ∧ f a = some b ∧
      ∀ x ∈ l1, f x = Option.none := by
  intro l
  induction l with
  | nil =>
    intro h
    cases h
  | cons a t ih =>
    intro h
    rw [List.findSome?_cons] at h
    rcases hfa : f a with _ | b'
    · rw [hfa] at h
      rcases ih h with ⟨l1, x, l2, heq, hfx, hnone⟩
      refine ⟨a :: l1, x, l2, by rw [heq]; rfl, hfx, ?_⟩
      intro y hy
      rcases List.mem_cons.mp hy with hy | hy
      · rw [hy]
        exact hfa
      · exact hnone y hy
    · rw [hfa] at h
      cases h
      exact ⟨[], a, t, rfl, hfa, by intro y hy; cases hy⟩

theorem find?_eq_some_split {α : Type} {p : α → Bool} {x : α} :
    ∀ {l : List α}, l.find? p = some x →
    ∃ u v, l = u ++ x :: v ∧ (∀ z ∈ u, p z = false) ∧ p x = true := by
  intro l
  induction l with
  | nil =>
    intro h
    cases h
  | cons a t ih =>
    intro h
    rw [List.find?_cons] at h
    rcases hpa : p a with _ | _
    · rw [hpa] at h
      rcases ih h with ⟨u, v, heq, hu, hx⟩
      refine ⟨a :: u, v, by rw [heq]; rfl, ?_, hx⟩
      intro z hz
      rcases List.mem_cons.mp hz with hz | hz
      · rw [hz]
        exact hpa
      · exact hu z hz
    · rw [hpa] at h
      cases h
      refine ⟨[], t, rfl, ?_, hpa⟩
      intro z hz
      cases hz

theorem sorted_find?_min {p : Component → Bool} {sorted : List Component}
    {x : Component}
    (hsorted : List.Sorted
      (fun a b : Component => a.component_id ≤ b.component_id) sorted)
    (hfind : sorted.find? p = some x) :
    ∀ y ∈ sorted, p y = true → x.component_id ≤ y.component_id := by
  rcases find?_eq_some_split hfind with ⟨u, v, heq, hu, hx⟩
  subst heq
  intro y hy hpy
  rcases List.mem_append.mp hy with hy | hy
  · rw [hu y hy] at hpy
    cases hpy
  · rcases List.mem_cons.mp hy with hy | hy
    · rw [hy]
    · have h2 := (List.pairwise_append.mp hsorted).2.1
      exact (List.pairwise_cons.mp h2).1 y hy

/-- Claim C5: `find_first_descendant_component` picks a component of
`root_category` (the first the component iteration yields) as root, and
returns the smallest-id immediate successor whose category is the earliest
entry of `descendant_categories` matched by any successor; it raises
`ValueError` when no component of `root_category` exists, and `ValueError`
when no immediate successor matches any listed category. -/
theorem c5_find_first_descendant (g : CGraph)
    (root_category : ComponentCategory) (cats : List ComponentCategory)
    (comps : List Component) (hcomps : g.componentsOf = .ok comps) :
    ((∀ c ∈ comps, c.category ≠ root_category) →
      find_first_descendant_component g root_category cats =
        .error .valueError) ∧
    (∀ root succs,
      comps.find? (fun c => c.category == root_category) = some root →
      g.successors root.component_id = .ok succs →
      (∀ cat ∈ cats, ∀ s ∈ succs, s.category ≠ cat) →
      find_first_descendant_component g root_category cats =
        .error .valueError) ∧
    (∀ comp, find_first_descendant_component g root_category cats = .ok comp →
      ∃ root succs l1 cat l2,
        root ∈ comps ∧ root.category = root_category ∧
        comps.find? (fun c => c.category == root_category) = some root ∧
        g.successors root.component_id = .ok succs ∧
        comp ∈ succs ∧
        cats = l1 ++ cat :: l2 ∧ comp.category = cat ∧
        (∀ cat' ∈ l1, ∀ s ∈ succs, s.category ≠ cat') ∧
        (∀ s ∈ succs, s.category = comp.category →
          comp.component_id ≤ s.component_id)) := by
  refine ⟨?_, ?_, ?_⟩
  · intro hnone
    have hfind : comps.find? (fun c => c.category == root_category) =
        Option.none := by
      rw [List.find?_eq_none]
      intro c hc
      simpa using hnone c hc
    simp only [find_first_descendant_component, hcomps, hfind]
  · intro root succs hroot hsucc hnomatch
    have hperm := List.perm_insertionSort
      (fun a b : Component => a.component_id ≤ b.component_id) succs
    have hfs : cats.findSome? (fun cat =>
        (succs.insertionSort (fun a b : Component =>
          a.component_id ≤ b.component_id)).find?
          (fun comp => comp.category == cat)) = Option.none := by
      apply findSome?_eq_none_of_all
      intro cat hcat
      rw [List.find?_eq_none]
      intro s hs
      have hsmem : s ∈ succs := hperm.mem_iff.mp hs
      simpa using hnomatch cat hcat s hsmem
    simp only [find_first_descendant_component, hcomps, hroot, hsucc, hfs]
  · intro comp hok
    simp only [find_first_descendant_component, hcomps] at hok
    rcases hroot : comps.find? (fun c => c.category == root_category)
      with _ | root
    · simp only [hroot] at hok
      cases hok
    simp only [hroot] at hok
    rcases hsucc : g.successors root.component_id with e | succs
    · simp only [hsucc] at hok
      cases hok
    simp only [hsucc] at hok
    rcases hfs : cats.findSome? (fun cat =>
        (succs.insertionSort (fun a b : Component =>
          a.component_id ≤ b.component_id)).find?
          (fun c => c.category == cat)) with _ | comp'
    · simp only [hfs] at hok
      cases hok
    simp only [hfs, Except.ok.injEq] at hok
    subst hok
    have hperm := List.perm_insertionSort
      (fun a b : Component => a.component_id ≤ b.component_id) succs
    have hsorted := List.sorted_insertionSort
      (fun a b : Component => a.component_id ≤ b.component_id) succs
    rcases findSome?_eq_some_split hfs with ⟨l1, cat, l2, hcats, hfcat, hl1⟩
    have hmem_sorted : comp' ∈ succs.insertionSort
        (fun a b : Component => a.component_id ≤ b.component_id) :=
      List.mem_of_find?_eq_some hfcat
    have hcatp : comp'.category = cat := by
      simpa using List.find?_some hfcat
    refine ⟨root, succs, l1, cat, l2,
      List.mem_of_find?_eq_some hroot,
      by simpa using List.find?_some hroot,
      hroot, hsucc, hperm.mem_iff.mp hmem_sorted, hcats, hcatp, ?_, ?_⟩
    · intro cat' hcat' s hs
      have hnone := hl1 cat' hcat'
      rw [List.find?_eq_none] at hnone
      have hs' : s ∈ succs.insertionSort
          (fun a b : Component => a.component_id ≤ b.component_id) :=
        hperm.mem_iff.mpr hs
      simpa using hnone s hs'
    · intro s hs hscat
      have hs' : s ∈ succs.insertionSort
          (fun a b : Component => a.component_id ≤ b.component_id) :=
        hperm.mem_iff.mpr hs
      refine sorted_find?_min hsorted hfcat s hs' ?_
      simp [hscat, hcatp]

/-- Witness for C5 on `gExample`: with root category `GRID` and descendant
categories `[METER]`, the meter (id 2) is found with all the listed
properties. -/
theorem c5_find_first_descendant_witness :
    ∃ root succs l1 cat l2,
      root ∈ gExample.definedData ∧
      root.category = ComponentCategory.grid ∧
      gExample.definedData.find?
        (fun c => c.category == ComponentCategory.grid) = some root ∧
      gExample.successors root.component_id = .ok succs ∧
      (⟨2, ComponentCategory.meter, Option.none⟩ : Component) ∈ succs ∧
      [ComponentCategory.meter] = l1 ++ cat :: l2 ∧
      (ComponentCategory.meter : ComponentCategory) = cat ∧
      (∀ cat' ∈ l1, ∀ s ∈ succs, s.category ≠ cat') ∧
      (∀ s ∈ succs, s.category = ComponentCategory.meter →
        2 ≤ s.component_id) :=
  (c5_find_first_descendant gExample ComponentCategory.grid
    [ComponentCategory.meter] gExample.definedData (by rfl)).2.2
    ⟨2, ComponentCategory.meter, Option.none⟩ (by rfl)

/-! ## `dfs` (`_graph_traversal.py`)

The Python `dfs` recurses through the graph while mutating the `visited`
set; here the visited set is threaded explicitly and the recursion carries a
fuel bounded by the node count (the public wrapper `dfs` below always
supplies enough fuel, as proved in the termination lemma).  Result sets are
modelled as lists: the Python set-union over successors becomes an ordered
concatenation. -/

/-- Errors of the embedded DFS: a graph error (`KeyError`), or fuel
exhaustion (unreachable from the wrapper with its fuel bound). -/
inductive DfsErr where
  | graphErr (e : GErr)
  | fuelExhausted
  deriving DecidableEq, Repr

/-- The loop `for successor in graph.successors(...):
component.update(dfs(graph, successor, visited, condition))`, abstracted
over the recursive call `f`. -/
def dfsFold
    (f : Component → List Component →
      Except DfsErr (List Component × List Component)) :
    List Component → List Component →
      Except DfsErr (List Component × List Component)
  | [], visited => .ok ([], visited)
  | s :: rest, visited =>
    match f s visited with
    | .error e => .error e
    | .ok (res, visited2) =>
      match dfsFold f rest visited2 with
      | .error e => .error e
      | .ok (res2, visited3) => .ok (res ++ res2, visited3)

/-- The fuelled body of `dfs(graph, current_node, visited, condition)`. -/
def dfsGo (g : CGraph) (cond : Component → Bool) :
    Nat → Component → List Component →
      Except DfsErr (List Component × List Component)
  | 0, _, _ => .error .fuelExhausted
  | fuel + 1, current, visited =>
    if visited.contains current then .ok ([], visited)
    else if cond current then .ok ([current], visited ++ [current])
    else
      match g.successors current.component_id with
      | .error e => .error (.graphErr e)
      | .ok succs => dfsFold (dfsGo g cond fuel) succs (visited ++ [current])

/-- `dfs(graph, current_node, visited, condition)`; the fuel `|nodes| + 1`
always suffices, see `c8_dfs`. -/
def dfs (g : CGraph) (current : Component) (visited : List Component)
    (cond : Component → Bool) :
    Except DfsErr (List Component × List Component) :=
  dfsGo g cond (g.nodes.length + 1) current visited

/-! ### C8: behaviour of `dfs` -/

theorem dfsGo_succ_eq (g : CGraph) (cond : Component → Bool) (fuel : Nat)
    (current : Component) (visited : List Component) :
    dfsGo g cond (fuel + 1) current visited =
      if visited.contains current then .ok ([], visited)
      else if cond current then .ok ([current], visited ++ [current])
      else
        match g.successors current.component_id with
        | .error e => .error (.graphErr e)
        | .ok succs =>
          dfsFold (dfsGo g cond fuel) succs (visited ++ [current]) := by
  rw [dfsGo]

theorem contains_false_iff {α : Type} [BEq α] [LawfulBEq α] (l : List α)
    (a : α) : l.contains a = false ↔ a ∉ l := by
  rw [← Bool.not_eq_true]
  simp

theorem dfsFold_spec {Q : Component → Prop}
    {f : Component → List Component →
      Except DfsErr (List Component × List Component)}
    (hf : ∀ c visited res vis, f c visited = .ok (res, vis) →
      (∃ ext, vis = visited ++ ext) ∧ res.Nodup ∧
      ∀ x ∈ res, Q x ∧ x ∉ visited ∧ x ∈ vis) :
    ∀ (l : List Component) (visited res vis : List Component),
      dfsFold f l visited = .ok (res, vis) →
      (∃ ext, vis = visited ++ ext) ∧ res.Nodup ∧
      ∀ x ∈ res, Q x ∧ x ∉ visited ∧ x ∈ vis := by
  intro l
  induction l with
  | nil =>
    intro visited res vis h
    cases h
    refine ⟨⟨[], by simp⟩, List.nodup_nil, ?_⟩
    intro x hx
    cases hx
  | cons s rest ih =>
    intro visited res vis h
    unfold dfsFold at h
    rcases hgo : f s visited with e | p1
    · simp only [hgo] at h
      cases h
    rcases p1 with ⟨res1, v2⟩
    simp only [hgo] at h
    rcases hrest : dfsFold f rest v2 with e | p2
    · simp only [hrest] at h
      cases h
    rcases p2 with ⟨res2, v3⟩
    simp only [hrest, Except.ok.injEq, Prod.mk.injEq] at h
    rcases h with ⟨h1, h2⟩
    subst h1
    subst h2
    rcases hf s visited res1 v2 hgo with ⟨⟨e1, he1⟩, hnd1, hall1⟩
    rcases ih v2 res2 v3 hrest with ⟨⟨e2, he2⟩, hnd2, hall2⟩
    refine ⟨⟨e1 ++ e2, by rw [he2, he1, List.append_assoc]⟩, ?_, ?_⟩
    · rw [List.nodup_append]
      refine ⟨hnd1, hnd2, ?_⟩
      intro x hx1 hx2
      have hin : x ∈ v2 := (hall1 x hx1).2.2
      exact (hall2 x hx2).2.1 hin
    · intro x hx
      rcases List.mem_append.mp hx with hx | hx
      · rcases hall1 x hx with ⟨hq, hnv, hv2⟩
        refine ⟨hq, hnv, ?_⟩
        rw [he2]
        exact List.mem_append_left _ hv2
      · rcases hall2 x hx with ⟨hq, hnv2, hv3⟩
        refine ⟨hq, ?_, hv3⟩
        intro hmem
        exact hnv2 (by rw [he1]; exact List.mem_append_left _ hmem)

theorem dfsGo_spec (g : CGraph) (cond : Component → Bool) :
    ∀ (fuel : Nat) (current : Component) (visited res vis : List Component),
      dfsGo g cond fuel current visited = .ok (res, vis) →
      (∃ ext, vis = visited ++ ext) ∧ res.Nodup ∧
      ∀ x ∈ res, cond x = true ∧ x ∉ visited ∧ x ∈ vis := by
  intro fuel
  induction fuel with
  | zero =>
    intro current visited res vis h
    cases h
  | succ fuel ih =>
    intro current visited res vis h
    rw [dfsGo_succ_eq] at h
    split at h
    next hcv =>
      cases h
      refine ⟨⟨[], by simp⟩, List.nodup_nil, ?_⟩
      intro x hx
      cases hx
    next hcv =>
      have hnotmem : current ∉ visited := by
        rw [← contains_false_iff]
        rw [Bool.not_eq_true] at hcv
        exact hcv
      split at h
      next hcond =>
        cases h
        refine ⟨⟨[current], rfl⟩, List.nodup_singleton current, ?_⟩
        intro x hx
        rcases List.mem_singleton.mp hx with rfl
        exact ⟨hcond, hnotmem,
          List.mem_append_right _ (List.mem_singleton.mpr rfl)⟩
      next hcond =>
        rcases hsucc : g.successors current.component_id with e | succs
        · rw [hsucc] at h
          cases h
        rw [hsucc] at h
        have hfold := dfsFold_spec (Q := fun c => cond c = true)
          (fun c v r w hr => ih c v r w hr) succs (visited ++ [current])
          res vis h
        rcases hfold with ⟨⟨ext, hext⟩, hnd, hall⟩
        refine ⟨⟨[current] ++ ext, by rw [hext, List.append_assoc]⟩, hnd, ?_⟩
        intro x hx
        rcases hall x hx with ⟨hq, hnv, hv⟩
        exact ⟨hq, fun hmem => hnv (List.mem_append_left _ hmem), hv⟩

/-- Every component reachable by `successors` from a component of the graph
is again a component of the graph (with the lookups succeeding); this holds
for every well-formed component graph and is the closure condition `dfs`
relies on. -/
def SuccClosed (g : CGraph) : Prop :=
  ∀ c ∈ g.definedData, ∃ l, g.successors c.component_id = .ok l ∧
    ∀ s ∈ l, s ∈ g.definedData

/-- The number of graph components not yet visited. -/
def unvisitedCount (g : CGraph) (visited : List Component) : Nat :=
  (g.definedData.filter (fun c => !visited.contains c)).length

theorem unvisitedCount_mono (g : CGraph) (visited ext : List Component) :
    unvisitedCount g (visited ++ ext) ≤ unvisitedCount g visited := by
  unfold unvisitedCount
  refine List.Sublist.length_le (List.monotone_filter_right _ ?_)
  intro a ha
  rw [Bool.not_eq_true'] at ha ⊢
  rw [contains_false_iff] at ha ⊢
  exact fun hm => ha (List.mem_append_left _ hm)

theorem unvisitedCount_strict (g : CGraph) {current : Component}
    {visited : List Component} (hcur : current ∈ g.definedData)
    (hnv : visited.contains current = false) :
    unvisitedCount g (visited ++ [current]) < unvisitedCount g visited := by
  unfold unvisitedCount
  have hsub : List.Sublist
      (g.definedData.filter (fun c => !(visited ++ [current]).contains c))
      (g.definedData.filter (fun c => !visited.contains c)) := by
    refine List.monotone_filter_right _ ?_
    intro a ha
    rw [Bool.not_eq_true'] at ha ⊢
    rw [contains_false_iff] at ha ⊢
    exact fun hm => ha (List.mem_append_left _ hm)
  refine Nat.lt_of_le_of_ne hsub.length_le ?_
  intro heq
  have heql := hsub.eq_of_length heq
  have hc1 : current ∈ g.definedData.filter (fun c => !visited.contains c) :=
    List.mem_filter.mpr ⟨hcur, by
      rw [Bool.not_eq_true']
      exact hnv⟩
  rw [← heql] at hc1
  have hc2 := (List.mem_filter.mp hc1).2
  rw [Bool.not_eq_true', contains_false_iff] at hc2
  exact hc2 (List.mem_append_right _ (List.mem_singleton.mpr rfl))

theorem dfsFold_terminates (g : CGraph) (cond : Component → Bool)
    (fuel : Nat)
    (ihgo : ∀ current visited, current ∈ g.definedData →
      unvisitedCount g visited < fuel →
      ∃ res vis, dfsGo g cond fuel current visited = .ok (res, vis)) :
    ∀ (l : List Component) (visited : List Component),
      (∀ s ∈ l, s ∈ g.definedData) → unvisitedCount g visited < fuel →
      ∃ res vis, dfsFold (dfsGo g cond fuel) l visited = .ok (res, vis) := by
  intro l
  induction l with
  | nil =>
    intro visited _ _
    exact ⟨[], visited, rfl⟩
  | cons s rest ih =>
    intro visited hmem hcount
    rcases ihgo s visited (hmem s (List.mem_cons_self s rest)) hcount
      with ⟨res1, v2, hgo⟩
    rcases (dfsGo_spec g cond fuel s visited res1 v2 hgo).1 with ⟨ext, hext⟩
    have hcount2 : unvisitedCount g v2 < fuel := by
      rw [hext]
      exact Nat.lt_of_le_of_lt (unvisitedCount_mono g visited ext) hcount
    rcases ih v2 (fun x hx => hmem x (List.mem_cons_of_mem s hx)) hcount2
      with ⟨res2, v3, hrest⟩
    refine ⟨res1 ++ res2, v3, ?_⟩
    unfold dfsFold
    simp only [hgo, hrest]

theorem dfsGo_terminates (g : CGraph) (cond : Component → Bool)
    (hclosed : SuccClosed g) :
    ∀ (fuel : Nat) (current : Component) (visited : List Component),
      current ∈ g.definedData → unvisitedCount g visited < fuel →
      ∃ res vis, dfsGo g cond fuel current visited = .ok (res, vis) := by
  intro fuel
  induction fuel with
  | zero =>
    intro current visited _ hcount
    exact absurd hcount (Nat.not_lt_zero _)
  | succ fuel ih =>
    intro current visited hcur hcount
    rcases hcv : visited.contains current with _ | _
    · have hstrict := unvisitedCount_strict g hcur hcv
      rcases hclosed current hcur with ⟨succs, hsucc, hsmem⟩
      by_cases hcond : cond current = true
      · refine ⟨[current], visited ++ [current], ?_⟩
        rw [dfsGo_succ_eq, hcv]
        simp [hcond]
      · have hcount1 : unvisitedCount g (visited ++ [current]) < fuel := by
          omega
        rcases dfsFold_terminates g cond fuel ih succs (visited ++ [current])
          hsmem hcount1 with ⟨res, vis, hfold⟩
        refine ⟨res, vis, ?_⟩
        rw [dfsGo_succ_eq, hcv]
        simp only [Bool.false_eq_true, if_false, hcond, hsucc]
        exact hfold
    · refine ⟨[], visited, ?_⟩
      rw [dfsGo_succ_eq, hcv]
      simp

/-- Claim C8: on a component graph closed under `successors` (as every
well-formed component graph is, acyclic or not), for every start component
of the graph, visited set and predicate, `dfs` terminates with a result in
which every component satisfies the predicate, was not already visited and
was added to the final visited set (with no duplicates, so no node is
processed twice); it returns `{start}` without descending when `start`
satisfies the predicate and is unvisited, returns the empty set leaving
`visited` unchanged when `start` is already visited, and otherwise descends
into the successor fold. -/
theorem c8_dfs (g : CGraph) (cond : Component → Bool) (current : Component)
    (visited : List Component) (hclosed : SuccClosed g)
    (hcur : current ∈ g.definedData) :
    (∃ res vis, dfs g current visited cond = .ok (res, vis) ∧
      (∃ ext, vis = visited ++ ext) ∧ res.Nodup ∧
      (∀ c ∈ res, cond c = true ∧ c ∉ visited ∧ c ∈ vis)) ∧
    (visited.contains current = true →
      dfs g current visited cond = .ok ([], visited)) ∧
    (visited.contains current = false → cond current = true →
      dfs g current visited cond = .ok ([current], visited ++ [current])) ∧
    (∀ succs, visited.contains current = false → cond current = false →
      g.successors current.component_id = .ok succs →
      dfs g current visited cond =
        dfsFold (dfsGo g cond g.nodes.length) succs (visited ++ [current])) := by
  have hbound : unvisitedCount g visited < g.nodes.length + 1 := by
    have h1 : unvisitedCount g visited ≤ g.definedData.length :=
      List.length_filter_le _ _
    have h2 : g.definedData.length ≤ g.nodes.length :=
      List.length_filterMap_le _ _
    omega
  refine ⟨?_, ?_, ?_, ?_⟩
  · rcases dfsGo_terminates g cond hclosed (g.nodes.length + 1) current
      visited hcur hbound with ⟨res, vis, hgo⟩
    rcases dfsGo_spec g cond (g.nodes.length + 1) current visited res vis hgo
      with ⟨hext, hnd, hall⟩
    exact ⟨res, vis, hgo, hext, hnd, hall⟩
  · intro hcv
    unfold dfs
    rw [dfsGo_succ_eq, hcv]
    simp
  · intro hcv hcond
    unfold dfs
    rw [dfsGo_succ_eq, hcv]
    simp [hcond]
  · intro succs hcv hcond hsucc
    unfold dfs
    rw [dfsGo_succ_eq, hcv]
    simp only [Bool.false_eq_true, if_false, hcond, hsucc]

/-- Witness for C8 on `gExample`: starting `dfs` at the grid component with
an empty visited set and the predicate "is a battery". -/
theorem c8_dfs_witness :
    ∃ res vis,
      dfs gExample ⟨1, ComponentCategory.grid, Option.none⟩ []
        (fun c => c.category == ComponentCategory.battery) = .ok (res, vis) ∧
      (∃ ext, vis = [] ++ ext) ∧ res.Nodup ∧
      (∀ c ∈ res, (c.category == ComponentCategory.battery) = true ∧
        c ∉ ([] : List Component) ∧ c ∈ vis) := by
  have hclosed : SuccClosed gExample := by
    intro c hc
    fin_cases hc
    · exact ⟨[⟨2, ComponentCategory.meter, Option.none⟩], by rfl, by decide⟩
    · exact ⟨[⟨3, ComponentCategory.inverter, some InverterType.battery⟩],
        by rfl, by decide⟩
    · exact ⟨[⟨4, ComponentCategory.battery, Option.none⟩], by rfl, by decide⟩
    · exact ⟨[], by rfl, by decide⟩
  exact (c8_dfs gExample (fun c => c.category == ComponentCategory.battery)
    ⟨1, ComponentCategory.grid, Option.none⟩ [] hclosed (by decide)).1

/-! ## `_correct_graph_errors` (`component_graph.py`) -/

/-- Does the attribute dict of node `n` contain the `"type"` key?  A node
added by `add_node(id, **asdict(component))` always carries a `"type"`
attribute (`asdict` serialises every field, `type` included); a node created
implicitly as an edge endpoint has an empty attribute dict. -/
def CGraph.nodeHasTypeAttr (g : CGraph) (n : Nat) : Bool :=
  match g.nodeData n with
  | some (some _) => true
  | _ => false

/-- The guard of `_correct_graph_errors`: node 0 exists, has in-degree 0 and
out-degree > 0, and carries no attribute data. -/
def correctorCondition (g : CGraph) : Bool :=
  g.hasNode 0 && g.inDegree 0 == 0 && decide (0 < g.outDegree 0) &&
    !(g.nodeHasTypeAttr 0)

/-- `_correct_graph_errors(graph)`: promote the implicit node 0 to
`Component(0, ComponentCategory.GRID)` when the guard holds, otherwise do
nothing. -/
def correct_graph_errors (g : CGraph) : CGraph :=
  if correctorCondition g then
    g.addNode 0 ⟨0, ComponentCategory.grid, Option.none⟩
  else g

/-! ### C7: the corrector promotes node 0 exactly under its guard -/

theorem hasNode_nodeData {g : CGraph} {n : Nat} (h : g.hasNode n = true) :
    ∃ d, g.nodeData n = some d := by
  unfold CGraph.hasNode at h
  unfold CGraph.nodeData
  rcases hf : g.nodes.find? (fun p => p.1 == n) with _ | p
  · rw [List.find?_eq_none] at hf
    rw [List.any_eq_true] at h
    rcases h with ⟨x, hx, hpx⟩
    exact absurd hpx (by simpa using hf x hx)
  · refine ⟨p.2, ?_⟩
    rw [hf]
    rfl

/-- The S6 component list: ids 1 (METER), 2 (battery INVERTER), 3 (BATTERY);
node 0 arises only implicitly from the connection `0→1` and so carries no
category or type data ("(0, unspecified)"). -/
def s6components : List Component :=
  [⟨1, ComponentCategory.meter, Option.none⟩,
   ⟨2, ComponentCategory.inverter, some InverterType.battery⟩,
   ⟨3, ComponentCategory.battery, Option.none⟩]

/-- The S6 connections `{0→1, 1→2, 2→3}`. -/
def s6connections : List Connection :=
  [⟨0, 1⟩, ⟨1, 2⟩, ⟨2, 3⟩]

/-- The S6 graph after the corrector promoted node 0 to `GRID`. -/
def s6corrected : CGraph :=
  correct_graph_errors (buildGraph s6components s6connections)

/-- Claim C7: `_correct_graph_errors` promotes node 0 to a `GRID` component
exactly when node 0 exists, has in-degree 0, out-degree > 0 and carries no
category/type data; under that condition the corrected S6 graph passes
`validate()` (and `refresh_from` with the corrector installs it); in every
other case the corrector leaves the graph unchanged. -/
theorem c7_corrector_promotes_node_zero :
    (∀ g : CGraph, correctorCondition g = true →
      correct_graph_errors g =
        g.addNode 0 ⟨0, ComponentCategory.grid, Option.none⟩) ∧
    (∀ g : CGraph, correctorCondition g = false →
      correct_graph_errors g = g) ∧
    (∀ g : CGraph, correctorCondition g = true ↔
      (g.hasNode 0 = true ∧ g.inDegree 0 = 0 ∧ 0 < g.outDegree 0 ∧
        g.nodeData 0 = some Option.none)) ∧
    (refreshFrom (fun _ => true) (fun _ => true) s6components s6connections
        (some correct_graph_errors) = .ok s6corrected ∧
      s6corrected.validate = .ok () ∧
      s6corrected.component 0 =
        .ok ⟨0, ComponentCategory.grid, Option.none⟩) := by
  refine ⟨?_, ?_, ?_, ?_, ?_, ?_⟩
  · intro g h
    unfold correct_graph_errors
    rw [if_pos h]
  · intro g h
    unfold correct_graph_errors
    rw [if_neg (by rw [h]; exact Bool.false_ne_true)]
  · intro g
    constructor
    · intro h
      unfold correctorCondition at h
      simp only [Bool.and_eq_true, beq_iff_eq, decide_eq_true_eq,
        Bool.not_eq_true'] at h
      rcases h with ⟨⟨⟨h1, h2⟩, h3⟩, h4⟩
      refine ⟨h1, h2, h3, ?_⟩
      rcases hasNode_nodeData h1 with ⟨d, hd⟩
      rcases d with _ | c
      · exact hd
      · exfalso
        unfold CGraph.nodeHasTypeAttr at h4
        rw [hd] at h4
        cases h4
    · intro ⟨h1, h2, h3, h4⟩
      unfold correctorCondition CGraph.nodeHasTypeAttr
      rw [h1, h2, h4]
      simp [h3]
  · rfl
  · rfl
  · rfl

/-- Witness for C7: the S6 graph before correction satisfies the guard, so
the corrector rewrites its node 0, and the unchanged-case clause applied to
`gExample` (whose node 0 does not exist) returns it untouched. -/
theorem c7_corrector_promotes_node_zero_witness :
    correct_graph_errors (buildGraph s6components s6connections) =
      (buildGraph s6components s6connections).addNode 0
        ⟨0, ComponentCategory.grid, Option.none⟩ ∧
    correct_graph_errors gExample = gExample := by
  constructor
  · exact c7_corrector_promotes_node_zero.1
      (buildGraph s6components s6connections) (by rfl)
  · exact c7_corrector_promotes_node_zero.2.1 gExample (by rfl)

/-! ## Battery health tracker

The implementation file of `BatteryStatusTracker`
(`actor/power_distributing/_battery_status.py`) is not among the sources;
only its tests (`tests/actor/test_battery_status.py`) are.  The model below
is therefore written from the specification (§4.3 of the spec: per-message
validity, the three-state machine, exponential back-off blocking), keeping
the spec's scenario S3 and the synchronous tests as the arbiter where the
spec text is ambiguous.  Wall-clock time is injectable in the source
(`time_machine` in the tests) and is passed here as an explicit
natural-number `now` (seconds). -/

/-- The health status `{NOT_WORKING, WORKING, UNCERTAIN}`. -/
inductive Status where
  | notWorking
  | working
  | uncertain
  deriving DecidableEq, Repr

/-- Battery relay state. -/
inductive RelayState where
  | opened
  | closed
  deriving DecidableEq, Repr

/-- Battery component states; only membership in the non-operational set
`{ERROR, SWITCHING_OFF}` matters for validity. -/
inductive BatteryComponentState where
  | charging
  | discharging
  | idle
  | error
  | switchingOff
  deriving DecidableEq, Repr

/-- Inverter component states. -/
inductive InverterComponentState where
  | charging
  | discharging
  | idle
  | error
  | switchingOff
  deriving DecidableEq, Repr

/-- Error levels of component error entries. -/
inductive ErrorLevel where
  | warn
  | critical
  deriving DecidableEq, Repr

/-- A battery capacity value: either `NaN` or a finite number (the spec
only distinguishes finite from `NaN`). -/
inductive CapacityValue where
  | nan
  | finite (wattHours : Nat)
  deriving DecidableEq, Repr

/-- A battery telemetry message (`BatteryData`); errors are reduced to
their levels. -/
structure BatteryMsg where
  component_id : Nat
  timestamp : Nat
  relay_state : RelayState
  component_state : BatteryComponentState
  errors : List ErrorLevel
  capacity : CapacityValue
  deriving DecidableEq, Repr

/-- An inverter telemetry message (`InverterData`). -/
structure InverterMsg where
  component_id : Nat
  timestamp : Nat
  component_state : InverterComponentState
  errors : List ErrorLevel
  deriving DecidableEq, Repr

/-- A set-power report: `{succeed, failed}` id sets. -/
structure SetPowerResult where
  succeed : List Nat
  failed : List Nat
  deriving DecidableEq, Repr

/-- Modelled from the spec: battery-message validity of the missing
`BatteryStatusTracker` — the timestamp is within `max_data_age` of now, the
relay is `CLOSED`, the component state is not in `{ERROR, SWITCHING_OFF}`,
no error has level `CRITICAL`, and the capacity is finite (not `NaN`). -/
def batteryMsgValid (max_data_age now : Nat) (m : BatteryMsg) : Bool :=
  decide (now - m.timestamp ≤ max_data_age) &&
  m.relay_state == RelayState.closed &&
  !(m.component_state == BatteryComponentState.error ||
    m.component_state == BatteryComponentState.switchingOff) &&
  !(m.errors.contains ErrorLevel.critical) &&
  (match m.capacity with
   | CapacityValue.finite _ => true
   | CapacityValue.nan => false)

/-- Modelled from the spec: inverter-message validity of the missing
`BatteryStatusTracker` — fresh timestamp, component state not in
`{ERROR, SWITCHING_OFF}`, no `CRITICAL` error (warnings alone do not
invalidate). -/
def inverterMsgValid (max_data_age now : Nat) (m : InverterMsg) : Bool :=
  decide (now - m.timestamp ≤ max_data_age) &&
  !(m.component_state == InverterComponentState.error ||
    m.component_state == InverterComponentState.switchingOff) &&
  !(m.errors.contains ErrorLevel.critical)

/-- Modelled from the spec: the state of the missing `BatteryStatusTracker`
— the tracked battery id, the `max_data_age` / `max_blocking_duration`
parameters, the last emitted status, the validity verdicts for the last
battery and inverter messages, and the blocking sub-state (the duration of
the last window and the wall-clock moment until which the component is
blocked, `Option.none` when unblocked). -/
structure Tracker where
  battery_id : Nat
  max_data_age : Nat
  max_blocking_duration : Nat
  last_status : Status
  battery_last_msg_correct : Bool
  inverter_last_msg_correct : Bool
  last_blocking_duration : Nat
  blocked_until : Option Nat
  deriving DecidableEq, Repr

/-- A freshly created tracker: initial status `NOT_WORKING`, no messages
seen, unblocked. -/
def Tracker.mkNew (battery_id max_data_age max_blocking_duration : Nat) :
    Tracker :=
  ⟨battery_id, max_data_age, max_blocking_duration, Status.notWorking,
    false, false, 1, Option.none⟩

/-- Modelled from the spec: starting/extending a blocking window on a
failed set-power report.  Per scenario S3 a failure landing inside a still
active window changes nothing; a failure with no active window starts a
1-second window; a failure after the previous window expired doubles the
duration, saturated at `max_blocking_duration`. -/
def Tracker.block (t : Tracker) (now : Nat) : Tracker :=
  match t.blocked_until with
  | Option.none =>
    { t with last_blocking_duration := 1, blocked_until := some (now + 1) }
  | some u =>
    if now < u then t
    else
      let d := min (2 * t.last_blocking_duration) t.max_blocking_duration
      { t with last_blocking_duration := d, blocked_until := some (now + d) }

/-- Cancel the blocking window (resetting the back-off sequence: the next
`block` starts again at 1 second). -/
def Tracker.unblock (t : Tracker) : Tracker :=
  { t with blocked_until := Option.none }

/-- Is a blocking window active at time `now`? -/
def Tracker.isBlocked (t : Tracker) (now : Nat) : Bool :=
  match t.blocked_until with
  | Option.none => false
  | some u => decide (now < u)

/-- Modelled from the spec: the effective status of the missing
`BatteryStatusTracker` — `NOT_WORKING` when either last message is invalid
(invalid telemetry always wins over blocking); a recovery from
`NOT_WORKING` on restored valid telemetry also cancels any active blocking
window (failure-recovery preempts blocking) and reports `WORKING`;
otherwise an active blocking window suppresses `WORKING` into `UNCERTAIN`. -/
def Tracker.currentStatus (t : Tracker) (now : Nat) : Tracker × Status :=
  if !(t.battery_last_msg_correct && t.inverter_last_msg_correct) then
    (t, Status.notWorking)
  else if t.last_status == Status.notWorking then
    (t.unblock, Status.working)
  else if t.isBlocked now then (t, Status.uncertain)
  else (t, Status.working)

/-- `_handle_status_battery`: record the validity of the newest battery
message. -/
def Tracker.handleBattery (t : Tracker) (now : Nat) (m : BatteryMsg) :
    Tracker :=
  { t with battery_last_msg_correct := batteryMsgValid t.max_data_age now m }

/-- `_handle_status_inverter`. -/
def Tracker.handleInverter (t : Tracker) (now : Nat) (m : InverterMsg) :
    Tracker :=
  { t with inverter_last_msg_correct :=
      inverterMsgValid t.max_data_age now m }

/-- Modelled from the spec: `_handle_status_set_power_result` of the
missing `BatteryStatusTracker` — a report whose `succeed` set contains the
battery unblocks it, a report whose `failed` set contains it (and whose
`succeed` set does not) blocks it, and a report mentioning it in neither
set is ignored. -/
def Tracker.handleSetPowerResult (t : Tracker) (now : Nat)
    (r : SetPowerResult) : Tracker :=
  if r.succeed.contains t.battery_id then t.unblock
  else if r.failed.contains t.battery_id then t.block now
  else t

/-- `_get_new_status_if_changed`: recompute the status and emit it only on
change. -/
def Tracker.getNewStatusIfChanged (t : Tracker) (now : Nat) :
    Tracker × Option Status :=
  let (t1, s) := t.currentStatus now
  if s == t.last_status then (t1, Option.none)
  else ({ t1 with last_status := s }, some s)

/-- One input event of the tracker. -/
inductive TrackerEvent where
  | battery (m : BatteryMsg)
  | inverter (m : InverterMsg)
  | setPower (r : SetPowerResult)
  deriving DecidableEq, Repr

/-- Process one event at time `now` and report the status emission, as the
synchronous tests do (`_handle_status_*` followed by
`_get_new_status_if_changed`). -/
def Tracker.step (t : Tracker) (now : Nat) (e : TrackerEvent) :
    Tracker × Option Status :=
  let t1 := match e with
    | TrackerEvent.battery m => t.handleBattery now m
    | TrackerEvent.inverter m => t.handleInverter now m
    | TrackerEvent.setPower r => t.handleSetPowerResult now r
  t1.getNewStatusIfChanged now

/-- Run a timed event trace, collecting the status emissions. -/
def Tracker.runTrace (t : Tracker) :
    List (Nat × TrackerEvent) → Tracker × List (Option Status)
  | [] => (t, [])
  | (now, e) :: rest =>
    let (t1, out) := t.step now e
    let (t2, outs) := t1.runTrace rest
    (t2, out :: outs)

/-! ### C1: the exponential back-off sequence -/

/-- A valid battery message for battery 9 stamped `ts`. -/
def validBat (ts : Nat) : BatteryMsg :=
  ⟨9, ts, RelayState.closed, BatteryComponentState.charging, [],
    CapacityValue.finite 0⟩

/-- A valid inverter message for inverter 8 stamped `ts`. -/
def validInv (ts : Nat) : InverterMsg :=
  ⟨8, ts, InverterComponentState.charging, []⟩

/-- The C1 counterexample trace: make the tracker `WORKING`, fail it at
time 0 (starting the 1-second window `[0, 1)`), fail it again at time 0 —
before the window expired — and query with valid telemetry at time 1. -/
def c1trace : List (Nat × TrackerEvent) :=
  [(0, TrackerEvent.inverter (validInv 0)),
   (0, TrackerEvent.battery (validBat 0)),
   (0, TrackerEvent.setPower ⟨[], [9]⟩),
   (0, TrackerEvent.setPower ⟨[], [9]⟩),
   (1, TrackerEvent.battery (validBat 1))]

/-- Counterexample to claim C1 as stated.  The claim counts a failure
"arriving before the previous blocking window has expired" as the next
consecutive failure, starting a window of `min(2^(k-1), max)` seconds — at
the concrete trace `c1trace` the fourth event is such a failure (k = 2), so
the claim predicts a fresh 2-second window `[0, 2)` (`blocked_until = 2`,
duration 2) with status `Uncertain` throughout; the tracker instead ignores
a failure landing inside an active window (`blocked_until` stays 1,
duration stays 1) and reports `Working` at time 1, exactly as the
synchronous blocking test demands. -/
theorem c1_backoff_counterexample :
    ((Tracker.mkNew 9 500 30).runTrace c1trace).2 =
      [Option.none, some Status.working, some Status.uncertain, Option.none,
        some Status.working] ∧
    ((Tracker.mkNew 9 500 30).runTrace (c1trace.take 4)).1.blocked_until =
      some 1 ∧
    ((Tracker.mkNew 9 500 30).runTrace
      (c1trace.take 4)).1.last_blocking_duration = 1 := by
  exact ⟨rfl, rfl, rfl⟩

/-- The `k`-th state of a tracker hit by one failed set-power report at
every expiry of its current blocking window (the schedule of the blocking
test): returns the tracker together with the time of the next failure. -/
def promptFailures (t : Tracker) (start : Nat) : Nat → Tracker × Nat
  | 0 => (t, start)
  | k + 1 =>
    let (tk, τ) := promptFailures t start k
    let tk1 := tk.handleSetPowerResult τ ⟨[], [tk.battery_id]⟩
    (tk1, τ + tk1.last_blocking_duration)

theorem min_double (a m : Nat) : min (2 * min a m) m = min (2 * a) m := by
  rcases Nat.le_total a m with h | h
  · rw [Nat.min_eq_left h]
  · rw [Nat.min_eq_right h, Nat.min_eq_right (by omega),
      Nat.min_eq_right (by omega)]

theorem handleSetPowerResult_fail_block (t : Tracker) (now : Nat) :
    t.handleSetPowerResult now ⟨[], [t.battery_id]⟩ = t.block now := by
  unfold Tracker.handleSetPowerResult
  simp
theorem promptFailures_step (t : Tracker) (start : Nat) (k : Nat)
    (tk : Tracker) (τ : Nat) (hp : promptFailures t start k = (tk, τ)) :
    promptFailures t start (k + 1) =
      (tk.block τ, τ + (tk.block τ).last_blocking_duration) := by
  unfold promptFailures
  rw [hp]
  show (tk.handleSetPowerResult τ ⟨[], [tk.battery_id]⟩,
    τ + (tk.handleSetPowerResult τ
      ⟨[], [tk.battery_id]⟩).last_blocking_duration) = _
  rw [handleSetPowerResult_fail_block]

theorem block_preserves_max (t : Tracker) (now : Nat) :
    (t.block now).max_blocking_duration = t.max_blocking_duration := by
  unfold Tracker.block
  split
  · rfl
  · split
    · rfl
    · rfl

theorem promptFailures_max (t : Tracker) (start : Nat) :
    ∀ k : Nat,
      (promptFailures t start k).1.max_blocking_duration =
        t.max_blocking_duration ∧
      (promptFailures t start k).1.battery_id = t.battery_id := by
  intro k
  induction k with
  | zero => exact ⟨rfl, rfl⟩
  | succ k ih =>
    rcases hp : promptFailures t start k with ⟨tk, τ⟩
    rw [hp] at ih
    rw [promptFailures_step t start k tk τ hp]
    refine ⟨?_, ?_⟩
    · show (tk.block τ).max_blocking_duration = t.max_blocking_duration
      rw [block_preserves_max]
      exact ih.1
    · show (tk.block τ).battery_id = t.battery_id
      unfold Tracker.block
      split
      · exact ih.2
      · split
        · exact ih.2
        · exact ih.2

/-- Claim C1 (amended): the `k`-th consecutive effective set-power failure
(each failure arriving once the previous window has expired, e.g.
immediately after the return to `Working`; failures landing inside a still
active window are ignored) blocks for `min(2^(k-1), max_blocking_duration)`
seconds; a succeeded report, or a recovery from `NotWorking` on restored
valid telemetry, unblocks the tracker and resets the sequence so that the
next failure blocks for 1 second again; while a window is active and
telemetry is valid the reported status is `Uncertain`. -/
theorem c1_backoff_amended (t : Tracker) (start : Nat)
    (hmax : 1 ≤ t.max_blocking_duration)
    (hb : t.blocked_until = Option.none) :
    (∀ k : Nat, 1 ≤ k →
      (promptFailures t start k).1.last_blocking_duration =
        min (2 ^ (k - 1)) t.max_blocking_duration ∧
      (promptFailures t start k).1.blocked_until =
        some (promptFailures t start k).2) ∧
    (∀ (t' : Tracker) (now u : Nat), t'.blocked_until = some u → now < u →
      t'.handleSetPowerResult now ⟨[], [t'.battery_id]⟩ = t') ∧
    (∀ (t' : Tracker) (now : Nat) (r : SetPowerResult),
      r.succeed.contains t'.battery_id = true →
      (t'.handleSetPowerResult now r).blocked_until = Option.none) ∧
    (∀ (t' : Tracker) (now : Nat),
      t'.battery_last_msg_correct = true →
      t'.inverter_last_msg_correct = true →
      t'.last_status = Status.notWorking →
      (t'.currentStatus now).2 = Status.working ∧
      (t'.currentStatus now).1.blocked_until = Option.none) ∧
    (∀ (t' : Tracker) (now : Nat), t'.blocked_until = Option.none →
      (t'.handleSetPowerResult now
        ⟨[], [t'.battery_id]⟩).last_blocking_duration = 1 ∧
      (t'.handleSetPowerResult now ⟨[], [t'.battery_id]⟩).blocked_until =
        some (now + 1)) ∧
    (∀ (t' : Tracker) (now u : Nat),
      t'.battery_last_msg_correct = true →
      t'.inverter_last_msg_correct = true →
      t'.last_status ≠ Status.notWorking →
      t'.blocked_until = some u → now < u →
      (t'.currentStatus now).2 = Status.uncertain) := by
  refine ⟨?_, ?_, ?_, ?_, ?_, ?_⟩
  · intro k hk
    induction k with
    | zero => omega
    | succ k ih =>
      rcases Nat.eq_zero_or_pos k with hk0 | hkpos
      · subst hk0
        have h1 := promptFailures_step t start 0 t start rfl
        rw [h1]
        have hblk : t.block start =
            { t with last_blocking_duration := 1,
                     blocked_until := some (start + 1) } := by
          unfold Tracker.block
          rw [hb]
        rw [hblk]
        constructor
        · show (1 : Nat) = min (2 ^ (1 - 1)) t.max_blocking_duration
          rw [pow_zero, Nat.min_eq_left hmax]
        · rfl
      · rcases hp : promptFailures t start k with ⟨tk, τ⟩
        rcases ih hkpos with ⟨ihd, ihb⟩
        rw [hp] at ihd ihb
        replace ihd : tk.last_blocking_duration =
            min (2 ^ (k - 1)) t.max_blocking_duration := by simpa using ihd
        replace ihb : tk.blocked_until = some τ := by simpa using ihb
        have hmx := (promptFailures_max t start k).1
        rw [hp] at hmx
        replace hmx : tk.max_blocking_duration = t.max_blocking_duration := by
          simpa using hmx
        rw [promptFailures_step t start k tk τ hp]
        have hblk : tk.block τ =
            { tk with
              last_blocking_duration :=
                min (2 * tk.last_blocking_duration) tk.max_blocking_duration,
              blocked_until := some (τ +
                min (2 * tk.last_blocking_duration)
                  tk.max_blocking_duration) } := by
          unfold Tracker.block
          simp only [ihb]
          rw [if_neg (by omega)]
        rw [hblk]
        constructor
        · show min (2 * tk.last_blocking_duration) tk.max_blocking_duration =
            min (2 ^ (k + 1 - 1)) t.max_blocking_duration
          rw [hmx, ihd, min_double]
          have hkk : k + 1 - 1 = k - 1 + 1 := by omega
          rw [hkk, pow_succ, Nat.mul_comm (2 ^ (k - 1)) 2]
        · rfl
  · intro t' now u hbu hlt
    rw [handleSetPowerResult_fail_block]
    unfold Tracker.block
    simp only [hbu]
    rw [if_pos hlt]
  · intro t' now r hsucc
    unfold Tracker.handleSetPowerResult
    rw [hsucc]
    rfl
  · intro t' now h1 h2 h3
    have hcs : t'.currentStatus now = (t'.unblock, Status.working) := by
      unfold Tracker.currentStatus
      simp [h1, h2, h3]
    rw [hcs]
    exact ⟨rfl, rfl⟩
  · intro t' now hbu
    rw [handleSetPowerResult_fail_block]
    unfold Tracker.block
    simp only [hbu]
    exact ⟨trivial, trivial⟩
  · intro t' now u h1 h2 h3 hbu hlt
    unfold Tracker.currentStatus
    rw [h1, h2]
    have hne : (t'.last_status == Status.notWorking) = false := by
      rcases hs : t'.last_status with _ | _ | _
      · exact absurd hs h3
      · rfl
      · rfl
    rw [hne]
    have hblk : t'.isBlocked now = true := by
      unfold Tracker.isBlocked
      rw [hbu]
      simpa using hlt
    rw [hblk]
    rfl

/-- Witness for C1 (amended) at a concrete tracker: after six prompt
failures of battery 9 with `max_blocking_duration = 30`, the window length
is `min(2^5, 30) = 30` seconds, and a failure inside an active window is a
no-op. -/
theorem c1_backoff_amended_witness :
    (promptFailures (Tracker.mkNew 9 500 30) 0 6).1.last_blocking_duration =
      30 ∧
    (promptFailures (Tracker.mkNew 9 500 30) 0 3).1.last_blocking_duration =
      4 := by
  have h6 := ((c1_backoff_amended (Tracker.mkNew 9 500 30) 0 (by decide)
    (by rfl)).1 6 (by omega)).1
  have h3 := ((c1_backoff_amended (Tracker.mkNew 9 500 30) 0 (by decide)
    (by rfl)).1 3 (by omega)).1
  rw [h6, h3]
  exact ⟨rfl, rfl⟩

/-! ### C6: NaN battery capacity -/

/-- Claim C6: with the last inverter message valid and the tracker not
`NotWorking`, a battery message that is valid in every respect except a
`NaN` capacity makes the next emitted status `NotWorking`; a subsequent
battery message with a finite capacity (all else valid) returns the status
to `Working`. -/
theorem c6_nan_capacity (t : Tracker) (now : Nat) (m m2 : BatteryMsg)
    (hinv : t.inverter_last_msg_correct = true)
    (hlast : t.last_status ≠ Status.notWorking)
    (hfresh : now - m.timestamp ≤ t.max_data_age)
    (hrelay : m.relay_state = RelayState.closed)
    (hstate : m.component_state ≠ BatteryComponentState.error ∧
      m.component_state ≠ BatteryComponentState.switchingOff)
    (herr : ErrorLevel.critical ∉ m.errors)
    (hnan : m.capacity = CapacityValue.nan)
    (hm2 : batteryMsgValid t.max_data_age now m2 = true) :
    (t.step now (TrackerEvent.battery m)).2 = some Status.notWorking ∧
    ((t.step now (TrackerEvent.battery m)).1.step now
      (TrackerEvent.battery m2)).2 = some Status.working := by
  have hbad : batteryMsgValid t.max_data_age now m = false := by
    unfold batteryMsgValid
    rw [hnan]
    simp
  have hlastne : (Status.notWorking == t.last_status) = false := by
    rcases hs : t.last_status with _ | _ | _
    · exact absurd hs hlast
    · rfl
    · rfl
  have hstep1 : t.step now (TrackerEvent.battery m) =
      ({ t with battery_last_msg_correct := false,
                last_status := Status.notWorking }, some Status.notWorking) := by
    unfold Tracker.step Tracker.handleBattery Tracker.getNewStatusIfChanged
      Tracker.currentStatus
    simp [hbad, hlastne]
  constructor
  · rw [hstep1]
  · rw [hstep1]
    unfold Tracker.step Tracker.handleBattery Tracker.getNewStatusIfChanged
      Tracker.currentStatus Tracker.unblock
    simp [hm2, hinv]

/-- Witness for C6 at a concrete tracker (battery 9, inverter message
valid, status `Working`) and concrete messages at time 0: the `NaN`
capacity message demotes to `NotWorking`, the finite one restores
`Working`. -/
theorem c6_nan_capacity_witness :
    (({ Tracker.mkNew 9 5 30 with
        last_status := Status.working,
        battery_last_msg_correct := true,
        inverter_last_msg_correct := true } : Tracker).step 0
      (TrackerEvent.battery
        ⟨9, 0, RelayState.closed, BatteryComponentState.charging, [],
          CapacityValue.nan⟩)).2 = some Status.notWorking ∧
    ((({ Tracker.mkNew 9 5 30 with
        last_status := Status.working,
        battery_last_msg_correct := true,
        inverter_last_msg_correct := true } : Tracker).step 0
      (TrackerEvent.battery
        ⟨9, 0, RelayState.closed, BatteryComponentState.charging, [],
          CapacityValue.nan⟩)).1.step 0
      (TrackerEvent.battery (validBat 0))).2 = some Status.working := by
  exact c6_nan_capacity _ 0 _ (validBat 0) rfl (by decide) (by decide)
    rfl (by constructor <;> decide) (by decide) rfl (by rfl)

end Frz
